import Mathlib

/-!
# LedgerGlow: logo caching, request aggregation and client pagination

A shallow embedding of `server.js` (the Express routes, the in-memory response
cache and the `logos.json` store) and of the pagination part of
`public/script.js`, followed by the properties checked against it.

Modelling conventions

* JavaScript values are the terms of `JsVal`; a number is a `JsNum`, which has
  room for every IEEE double (`-0` is identified with `0`: the server never
  tells them apart).  The parsing of a string into a number, number formatting
  and `CryptoJS.MD5` are library code and are taken as the fields of a
  `Platform`.
* Converting a value to a string (in a template literal, as a property key, as
  the argument of `parseFloat` or `parseInt`) throws a `TypeError` on an object
  that has an own property `toString`: such a property, coming from JSON, is
  never callable.
* The module-level `Map` called `cache`, the file `public/logos.json` and the
  effects performed so far (HTTP requests, file reads, file writes) make up a
  `World`.  Every `cache.set` of the server stores an object literal, so a
  cached payload is kept as its field list.
* What the outside answers is an `Env`: the outcome of an `axios.get` depends
  on the URL and on the number of HTTP requests issued before it, the outcome
  of a write of `logos.json` on the number of writes attempted before it.
  `none` stands for a rejected request (network error, timeout, status outside
  2xx).  A write is completed, rejected with the file untouched, or rejected
  after the file was truncated.
* The content of `logos.json` is a mapping from fingerprint to string; a
  missing or unparsable file is `none`, and a read returns what is on disk.
  Reading `logos[md5]` also sees the properties every object inherits from
  `Object.prototype`.
* `getTokenLogo` is given twice: as one function, which is what a caller sees
  when no other request runs in between, and as a task that advances from one
  `await` to the next, for requests that overlap.  The route handlers are given
  as run alone.
* Console output is not modelled, except that evaluating the arguments of a
  logging call may throw.
* On the client, the elements `loading` and `token-grid` of the page exist;
  drawing the cards of a page may throw, depending on the tokens received.
-/

namespace LedgerGlow

/-! ## JavaScript values -/

/-- A JavaScript number. -/
inductive JsNum where
  | nan
  | posInf
  | negInf
  | fin (q : ℚ)
deriving DecidableEq

/-- A JavaScript value, as far as JSON payloads and the server's own object
literals need it. -/
inductive JsVal where
  | undefined
  | null
  | bool (b : Bool)
  | num (n : JsNum)
  | str (s : String)
  | arr (items : List JsVal)
  | obj (fields : List (String × JsVal))

/-- Errors a handler can throw or catch. -/
inductive JsError where
  | requestFailed
  | typeError
  | referenceError (name : String)
  | error (message : String)
deriving DecidableEq

/-- Lookup in a keyed collection (a `Map`, or the own properties of an
object): the first binding of the key. -/
def mapGet {α : Type} (k : String) : List (String × α) → Option α
  | [] => none
  | (k', v) :: rest => if k' = k then some v else mapGet k rest

/-- Assignment in a keyed collection: `map.set(k, v)` or `obj[k] = v`.  An
existing key keeps its position, a new key is added at the end. -/
def mapSet {α : Type} (k : String) (v : α) : List (String × α) → List (String × α)
  | [] => [(k, v)]
  | (k', v') :: rest => if k' = k then (k, v) :: rest else (k', v') :: mapSet k v rest

/-- The keys of a keyed collection. -/
def mapKeys {α : Type} (m : List (String × α)) : List String :=
  m.map Prod.fst

namespace JsVal

/-- JavaScript truthiness. -/
def truthy : JsVal → Bool
  | undefined => false
  | null => false
  | bool b => b
  | num .nan => false
  | num (.fin q) => decide (q ≠ 0)
  | num _ => true
  | str s => decide (s ≠ "")
  | arr _ => true
  | obj _ => true

/-- The operator `a || b` (the right operand has no effect where this is used). -/
def or (a b : JsVal) : JsVal :=
  if a.truthy then a else b

/-- Whether the value is `null` or `undefined`. -/
def nullish : JsVal → Bool
  | undefined => true
  | null => true
  | _ => false

/-- The property `v?.k`: the own property of an object, `undefined` otherwise.
The plain access `v.k` is this value when `v` is not nullish and throws a
`TypeError` when it is.  Used only for names that no prototype defines. -/
def prop (v : JsVal) (k : String) : JsVal :=
  match v with
  | obj fields => (mapGet k fields).getD undefined
  | _ => undefined

/-- The string of an object: `Object.prototype.toString` gives
`"[object Object]"`, unless an own property `toString` hides it, and then the
conversion throws. -/
def objStr (fields : List (String × JsVal)) : Except JsError String :=
  match mapGet "toString" fields with
  | some _ => Except.error JsError.typeError
  | none => Except.ok "[object Object]"

mutual
/-- The method `Array.prototype.join` with the default separator. -/
def joinStr (numToString : JsNum → String) : List JsVal → Except JsError String
  | [] => Except.ok ""
  | [x] => elemStr numToString x
  | x :: y :: rest =>
    match elemStr numToString x with
    | Except.error e => Except.error e
    | Except.ok a =>
      match joinStr numToString (y :: rest) with
      | Except.error e => Except.error e
      | Except.ok b => Except.ok (a ++ "," ++ b)
/-- The string an array element contributes to `join`. -/
def elemStr (numToString : JsNum → String) : JsVal → Except JsError String
  | undefined => Except.ok ""
  | null => Except.ok ""
  | bool true => Except.ok "true"
  | bool false => Except.ok "false"
  | num n => Except.ok (numToString n)
  | str s => Except.ok s
  | arr items => joinStr numToString items
  | obj fields => objStr fields
end

/-- The conversion to string performed by a template literal, a property key
or a parsing builtin. -/
def toStr (numToString : JsNum → String) : JsVal → Except JsError String
  | undefined => Except.ok "undefined"
  | null => Except.ok "null"
  | bool true => Except.ok "true"
  | bool false => Except.ok "false"
  | num n => Except.ok (numToString n)
  | str s => Except.ok s
  | arr items => joinStr numToString items
  | obj fields => objStr fields

end JsVal

/-- Library functions the server calls and that are not part of the repository. -/
structure Platform where
  /-- The digest `CryptoJS.MD5(s).toString()`. -/
  md5Hex : String → String
  /-- The builtin `parseFloat`, after its argument was converted to a string. -/
  parseFloat : String → JsNum
  /-- The builtin `parseInt`, after its argument was converted to a string. -/
  parseInt : String → JsNum
  /-- Number to string conversion. -/
  numToString : JsNum → String

/-- Template-literal conversion on a given platform. -/
def Platform.str (P : Platform) (v : JsVal) : Except JsError String :=
  v.toStr P.numToString

/-- The call `parseFloat(v)`. -/
def Platform.parseFloatOf (P : Platform) (v : JsVal) : Except JsError JsNum :=
  match P.str v with
  | Except.ok s => Except.ok (P.parseFloat s)
  | Except.error e => Except.error e

/-- The call `parseInt(v)`. -/
def Platform.parseIntOf (P : Platform) (v : JsVal) : Except JsError JsNum :=
  match P.str v with
  | Except.ok s => Except.ok (P.parseInt s)
  | Except.error e => Except.error e

/-! ## Base64 (`Buffer.from(data).toString('base64')`) -/

/-- The base64 alphabet. -/
def base64Alphabet : List Char :=
  "ABCDEFGHIJKLMNOPQRSTUVWXYZabcdefghijklmnopqrstuvwxyz0123456789+/".toList

/-- The base64 digit of a 6-bit group. -/
def base64Digit (n : Nat) : Char :=
  base64Alphabet.getD (n % 64) 'A'

/-- Base64 encoding of a byte sequence, with padding. -/
def base64Chars : List Nat → List Char
  | [] => []
  | [a] =>
    let a := a % 256
    [base64Digit (a / 4), base64Digit (a % 4 * 16), '=', '=']
  | [a, b] =>
    let a := a % 256
    let b := b % 256
    [base64Digit (a / 4), base64Digit (a % 4 * 16 + b / 16), base64Digit (b % 16 * 4), '=']
  | a :: b :: c :: rest =>
    let a := a % 256
    let b := b % 256
    let c := c % 256
    base64Digit (a / 4) :: base64Digit (a % 4 * 16 + b / 16) ::
      base64Digit (b % 16 * 4 + c / 64) :: base64Digit (c % 64) :: base64Chars rest

/-- Base64 encoding as a string. -/
def toBase64 (bytes : List Nat) : String :=
  String.mk (base64Chars bytes)


/-! ## Server state and environment -/

/-- The parsed content of `logos.json`: fingerprint to image data URI. -/
abbrev LogoDoc := List (String × String)

/-- The response cache: key to cached payload (the fields of an object). -/
abbrev Cache := List (String × List (String × JsVal))

/-- An observable effect of the server. -/
inductive Effect where
  | httpGet (url : String)
  | readFile
  | writeFile (doc : LogoDoc)
deriving DecidableEq

/-- The state the server code acts on. -/
structure World where
  cache : Cache
  logoFile : Option LogoDoc
  trace : List Effect

/-- How a call of `fs.writeFile` on `logos.json` ends. -/
inductive WriteResult where
  /-- The new content is on disk. -/
  | written
  /-- The call is rejected and the file is as before. -/
  | rejected
  /-- The call is rejected after the file was truncated: what is left does not parse. -/
  | truncated
deriving DecidableEq

/-- The answers of the outside world.  The first argument is the number of
HTTP requests issued (for `putFile`: of writes attempted) before the call. -/
structure Env where
  /-- The call `axios.get(url)`: the `data` of the response. -/
  getJson : Nat → String → Option JsVal
  /-- The call `axios.get(url, ...)` with `responseType: 'arraybuffer'`: the bytes. -/
  getImage : Nat → String → Option (List Nat)
  /-- The call `fs.writeFile(logoCacheFile, ...)`. -/
  putFile : Nat → WriteResult

/-- Number of HTTP requests in a trace. -/
def netCount : List Effect → Nat
  | [] => 0
  | Effect.httpGet _ :: rest => netCount rest + 1
  | _ :: rest => netCount rest

/-- Number of attempted writes of `logos.json` in a trace. -/
def writeCount : List Effect → Nat
  | [] => 0
  | Effect.writeFile _ :: rest => writeCount rest + 1
  | _ :: rest => writeCount rest

/-- A JSON request to an upstream API. -/
def httpGetJson (env : Env) (url : String) (w : World) : Option JsVal × World :=
  (env.getJson (netCount w.trace) url, { w with trace := w.trace ++ [Effect.httpGet url] })

/-- A binary request to the image host. -/
def httpGetImage (env : Env) (url : String) (w : World) : Option (List Nat) × World :=
  (env.getImage (netCount w.trace) url, { w with trace := w.trace ++ [Effect.httpGet url] })

/-! ## server.js: the logo store and logo resolution -/

/-- The logo store as `loadLogoCache` sees it: the empty mapping when the file
cannot be read or parsed. -/
def World.logos (w : World) : LogoDoc :=
  w.logoFile.getD []

/-- The function `loadLogoCache`: the parsed file, or the empty mapping when it cannot be
read or parsed. -/
def loadLogoCache (w : World) : LogoDoc × World :=
  (w.logos, { w with trace := w.trace ++ [Effect.readFile] })

/-- The function `saveLogoCache`: the whole document is rewritten; `false` when
the write is rejected. -/
def saveLogoCache (env : Env) (logos : LogoDoc) (w : World) : Bool × World :=
  match env.putFile (writeCount w.trace) with
  | WriteResult.written =>
    (true, { w with logoFile := some logos, trace := w.trace ++ [Effect.writeFile logos] })
  | WriteResult.rejected =>
    (false, { w with trace := w.trace ++ [Effect.writeFile logos] })
  | WriteResult.truncated =>
    (false, { w with logoFile := none, trace := w.trace ++ [Effect.writeFile logos] })

/-- The function `getMD5Value`: the template converts `issuer`, then `currency`. -/
def getMD5Value (P : Platform) (issuer currency : JsVal) : Except JsError JsVal :=
  match P.str issuer with
  | Except.error e => Except.error e
  | Except.ok si =>
    match P.str currency with
    | Except.error e => Except.error e
    | Except.ok sc => Except.ok (JsVal.str (P.md5Hex (si ++ "_" ++ sc)))

/-- The own property names of `Object.prototype`: every object created by
`JSON.parse` or by an object literal inherits them. -/
def objectPrototypeNames : List String :=
  ["constructor", "__defineGetter__", "__defineSetter__", "hasOwnProperty",
   "__lookupGetter__", "__lookupSetter__", "isPrototypeOf", "propertyIsEnumerable",
   "toString", "valueOf", "__proto__", "toLocaleString"]

/-- What `logos[md5]` evaluates to. -/
inductive LogoEntry where
  /-- An own property of the parsed document: a string. -/
  | own (image : String)
  /-- A property inherited from `Object.prototype`: a function or an object,
  truthy and without a method `slice`. -/
  | inherited
  /-- The value `undefined`. -/
  | absent

/-- The value `logos[md5]`. -/
def logoEntry (md5 : String) (logos : LogoDoc) : LogoEntry :=
  match mapGet md5 logos with
  | some s => LogoEntry.own s
  | none => if md5 ∈ objectPrototypeNames then LogoEntry.inherited else LogoEntry.absent

/-- The `try` block of `getTokenLogo` with its `catch`: `md5` and `key` are the
strings of the fingerprint and of the cache key, `logos` the document loaded
before.  A rejected request and a rejected write both end in the `catch`. -/
def fetchLogo (env : Env) (md5 key : String) (logos : LogoDoc) (w : World) : JsVal × World :=
  match httpGetImage env ("https://s1.xrpl.to/token/" ++ md5) w with
  | (none, w1) => (JsVal.obj [("image", JsVal.str "")], w1)
  | (some bytes, w1) =>
    let dataUrl := "data:image/webp;base64," ++ toBase64 bytes
    match saveLogoCache env (mapSet md5 dataUrl logos) w1 with
    | (true, w2) =>
      (JsVal.obj [("image", JsVal.str dataUrl)],
        { w2 with cache := mapSet key [("image", JsVal.str dataUrl)] w2.cache })
    | (false, w2) => (JsVal.obj [("image", JsVal.str "")], w2)

/-- The function `getTokenLogo`, run without another request in between.  It
throws when `md5` cannot be converted to a string (the template of `key`) and
when `logos[md5]` is an inherited property (the `slice` call in the template of
the log line); neither is inside the `try`. -/
def getTokenLogo (P : Platform) (env : Env) (md5 : JsVal) (w : World) :
    Except JsError JsVal × World :=
  match P.str md5 with
  | Except.error e => (Except.error e, w)
  | Except.ok s =>
    match mapGet ("logo_" ++ s) w.cache with
    | some hit => (Except.ok (JsVal.obj hit), w)
    | none =>
      match loadLogoCache w with
      | (logos, w1) =>
        match logoEntry s logos with
        | LogoEntry.inherited => (Except.error JsError.typeError, w1)
        | LogoEntry.absent =>
          ((Except.ok (fetchLogo env s ("logo_" ++ s) logos w1).1),
            (fetchLogo env s ("logo_" ++ s) logos w1).2)
        | LogoEntry.own image =>
          if image ≠ "" then
            (Except.ok (JsVal.obj [("image", JsVal.str image)]),
              { w1 with cache := mapSet ("logo_" ++ s) [("image", JsVal.str image)] w1.cache })
          else
            ((Except.ok (fetchLogo env s ("logo_" ++ s) logos w1).1),
              (fetchLogo env s ("logo_" ++ s) logos w1).2)

/-- A sequence of logo resolutions, each one finished before the next starts. -/
def resolveLogos (P : Platform) (env : Env) : List JsVal → World → World
  | [], w => w
  | md5 :: rest, w => resolveLogos P env rest (getTokenLogo P env md5 w).2

/-! ## server.js: logo resolution, one `await` at a time -/

/-- A call of `getTokenLogo` in progress. -/
inductive LogoTask where
  /-- Not started. -/
  | start (md5 : JsVal)
  /-- Suspended at `await loadLogoCache()`. -/
  | reading (md5 : String)
  /-- Suspended at `await axios.get(...)`; `reply` is what the host will answer. -/
  | fetching (md5 : String) (logos : LogoDoc) (reply : Option (List Nat))
  /-- Suspended at `await saveLogoCache(logos)`; `saved` tells whether the write went through. -/
  | writing (md5 : String) (dataUrl : String) (saved : Bool)
  /-- Returned or thrown. -/
  | done (result : Except JsError JsVal)

/-- The request to the image host is sent; the task waits for the answer. -/
def sendLogoRequest (env : Env) (md5 : String) (logos : LogoDoc) (w : World) :
    LogoTask × World :=
  match httpGetImage env ("https://s1.xrpl.to/token/" ++ md5) w with
  | (reply, w1) => (LogoTask.fetching md5 logos reply, w1)

/-- The code of `getTokenLogo` from one suspension point to the next. -/
def logoStep (P : Platform) (env : Env) (t : LogoTask) (w : World) : LogoTask × World :=
  match t with
  | LogoTask.start md5 =>
    match P.str md5 with
    | Except.error e => (LogoTask.done (Except.error e), w)
    | Except.ok s =>
      match mapGet ("logo_" ++ s) w.cache with
      | some hit => (LogoTask.done (Except.ok (JsVal.obj hit)), w)
      | none => (LogoTask.reading s, w)
  | LogoTask.reading s =>
    match loadLogoCache w with
    | (logos, w1) =>
      match logoEntry s logos with
      | LogoEntry.inherited => (LogoTask.done (Except.error JsError.typeError), w1)
      | LogoEntry.absent => sendLogoRequest env s logos w1
      | LogoEntry.own image =>
        if image ≠ "" then
          (LogoTask.done (Except.ok (JsVal.obj [("image", JsVal.str image)])),
            { w1 with cache := mapSet ("logo_" ++ s) [("image", JsVal.str image)] w1.cache })
        else sendLogoRequest env s logos w1
  | LogoTask.fetching s logos reply =>
    match reply with
    | none => (LogoTask.done (Except.ok (JsVal.obj [("image", JsVal.str "")])), w)
    | some bytes =>
      let dataUrl := "data:image/webp;base64," ++ toBase64 bytes
      match saveLogoCache env (mapSet s dataUrl logos) w with
      | (saved, w1) => (LogoTask.writing s dataUrl saved, w1)
  | LogoTask.writing s dataUrl saved =>
    if saved then
      (LogoTask.done (Except.ok (JsVal.obj [("image", JsVal.str dataUrl)])),
        { w with cache := mapSet ("logo_" ++ s) [("image", JsVal.str dataUrl)] w.cache })
    else (LogoTask.done (Except.ok (JsVal.obj [("image", JsVal.str "")])), w)
  | LogoTask.done result => (LogoTask.done result, w)

/-- One task run for `n` steps. -/
def logoRun (P : Platform) (env : Env) : Nat → LogoTask → World → LogoTask × World
  | 0, t, w => (t, w)
  | n + 1, t, w => logoRun P env n (logoStep P env t w).1 (logoStep P env t w).2

/-- Two calls of `getTokenLogo` whose steps interleave as the schedule says:
`false` advances the first call, `true` the second. -/
def logoInterleave (P : Platform) (env : Env) :
    List Bool → LogoTask → LogoTask → World → LogoTask × LogoTask × World
  | [], a, b, w => (a, b, w)
  | false :: rest, a, b, w =>
    logoInterleave P env rest (logoStep P env a w).1 b (logoStep P env a w).2
  | true :: rest, a, b, w =>
    logoInterleave P env rest a (logoStep P env b w).1 (logoStep P env b w).2

/-! ## server.js: `GET /api/tokens` -/

/-- What a route handler does with its request. -/
inductive Outcome where
  /-- The handler called `res.json(body)`. -/
  | responded (body : JsVal)
  /-- The handler threw before any response was sent. -/
  | raised (e : JsError)

/-- The fingerprint of a catalog token: `token.md5 || getMD5Value(token.issuer, token.currency)`. -/
def tokenFingerprint (P : Platform) (token : JsVal) : Except JsError JsVal :=
  if (token.prop "md5").truthy then Except.ok (token.prop "md5")
  else getMD5Value P (token.prop "issuer") (token.prop "currency")

/-- The object pushed on `tokenData` for a catalog token; the three parsing
calls convert their argument to a string first and may throw. -/
def tokenSummary (P : Platform) (token md5 logo : JsVal) : Except JsError JsVal :=
  match P.parseFloatOf ((token.prop "vol24hxrp").or (JsVal.num (JsNum.fin 0))) with
  | Except.error e => Except.error e
  | Except.ok volume =>
    match P.parseFloatOf ((token.prop "marketcap").or (JsVal.num (JsNum.fin 0))) with
    | Except.error e => Except.error e
    | Except.ok marketCap =>
      match P.parseIntOf ((token.prop "trustlines").or (JsVal.num (JsNum.fin 0))) with
      | Except.error e => Except.error e
      | Except.ok holders =>
        Except.ok (JsVal.obj
          [("name", (token.prop "currency").or (JsVal.str "Unknown")),
           ("volume", JsVal.num volume),
           ("marketCap", JsVal.num marketCap),
           ("holders", JsVal.num holders),
           ("issuer", (token.prop "issuer").or (JsVal.str "")),
           ("md5", md5),
           ("logo", logo)])

/-- The loop `for (const token of tokens)`: `acc` is `tokenData` so far.  The
body throws when the element is `null` or `undefined` (reading `token.md5`), when
`getMD5Value` or `getTokenLogo` throws, when `token.currency` cannot be
converted to a string (the template of the log line) and when a parsing call
throws. -/
def resolveTokens (P : Platform) (env : Env) :
    List JsVal → List JsVal → World → Except JsError (List JsVal) × World
  | [], acc, w => (Except.ok acc, w)
  | token :: rest, acc, w =>
    if token.nullish then (Except.error JsError.typeError, w)
    else
      match tokenFingerprint P token with
      | Except.error e => (Except.error e, w)
      | Except.ok md5 =>
        match getTokenLogo P env md5 w with
        | (Except.error e, w1) => (Except.error e, w1)
        | (Except.ok logoData, w1) =>
          match P.str (token.prop "currency") with
          | Except.error e => (Except.error e, w1)
          | Except.ok _ =>
            match tokenSummary P token md5 ((logoData.prop "image").or (JsVal.str "")) with
            | Except.error e => (Except.error e, w1)
            | Except.ok summary => resolveTokens P env rest (acc ++ [summary]) w1

/-- The URL of a catalog page; `parseInt` throws on a query value that cannot
be converted to a string. -/
def catalogUrl (P : Platform) (qStart qLimit : JsVal) : Except JsError String :=
  match P.parseIntOf qStart with
  | Except.error e => Except.error e
  | Except.ok s =>
    match P.parseIntOf qLimit with
    | Except.error e => Except.error e
    | Except.ok l =>
      Except.ok ("https://api.xrpl.to/api/tokens?start=" ++
        P.numToString (if (JsVal.num s).truthy then s else JsNum.fin 0) ++ "&limit=" ++
        P.numToString (if (JsVal.num l).truthy then l else JsNum.fin 100) ++
        "&sortBy=vol24hxrp&sortType=desc&filter=")

/-- The value `response.data.tokens || response.data`; reading `.tokens` throws
when `response.data` is `null` or `undefined`. -/
def catalogTokens (data : JsVal) : Except JsError JsVal :=
  if data.nullish then Except.error JsError.typeError
  else Except.ok ((data.prop "tokens").or data)

/-- The `try` block of the `/api/tokens` handler. -/
def tokensTry (P : Platform) (env : Env) (qStart qLimit : JsVal) (w : World) :
    Except JsError JsVal × World :=
  match catalogUrl P qStart qLimit with
  | Except.error e => (Except.error e, w)
  | Except.ok url =>
    match httpGetJson env url w with
    | (none, w1) => (Except.error JsError.requestFailed, w1)
    | (some data, w1) =>
      match catalogTokens data with
      | Except.error e => (Except.error e, w1)
      | Except.ok (JsVal.arr tokens) =>
        match resolveTokens P env tokens [] w1 with
        | (Except.ok tokenData, w2) => (Except.ok (JsVal.arr tokenData), w2)
        | (Except.error e, w2) => (Except.error e, w2)
      | Except.ok _ => (Except.error (JsError.error "Invalid API response: not an array"), w1)

/-- The mock data of the `catch` block of the `/api/tokens` handler. -/
def fallbackTokens : JsVal :=
  JsVal.arr
    [JsVal.obj
      [("name", JsVal.str "RLUSD"),
       ("volume", JsVal.num (JsNum.fin 1000000)),
       ("marketCap", JsVal.num (JsNum.fin 50000000)),
       ("holders", JsVal.num (JsNum.fin 5000)),
       ("issuer", JsVal.str "rhub8VRN55s94qWKDv6jmDy1pUykJzF3wq"),
       ("md5", JsVal.str "0413ca7cfc258dfaf698c02fe304e607"),
       ("logo", JsVal.str "")],
     JsVal.obj
      [("name", JsVal.str "SGB"),
       ("volume", JsVal.num (JsNum.fin 500000)),
       ("marketCap", JsVal.num (JsNum.fin 20000000)),
       ("holders", JsVal.num (JsNum.fin 3000)),
       ("issuer", JsVal.str "rHgbFyS72N3r6hGE1r4gdkRZoSwZ49MZuf"),
       ("md5", JsVal.str "mock2"),
       ("logo", JsVal.str "")]]

/-- The handler of `GET /api/tokens`; `qStart` and `qLimit` are `req.query.start`
and `req.query.limit`.  The `catch` block reads only `error`, its own parameter. -/
def tokensHandler (P : Platform) (env : Env) (qStart qLimit : JsVal) (w : World) :
    Outcome × World :=
  match tokensTry P env qStart qLimit w with
  | (Except.ok body, w1) => (Outcome.responded body, w1)
  | (Except.error _, w1) => (Outcome.responded fallbackTokens, w1)

/-- A catalog token on which the body of the loop does not throw, whatever the
state of the server: the element is not `null` or `undefined`; its fingerprint
can be computed, converts to a string and is not the name of a property
inherited from `Object.prototype`; `currency` converts to a string; the
arguments of the three parsing calls convert to a string. -/
def tokenOk (P : Platform) (token : JsVal) : Prop :=
  token.nullish = false ∧
  (∃ (md5 : JsVal) (s : String), tokenFingerprint P token = Except.ok md5 ∧
    P.str md5 = Except.ok s ∧ s ∉ objectPrototypeNames) ∧
  (∃ c : String, P.str (token.prop "currency") = Except.ok c) ∧
  (∃ v : String, P.str ((token.prop "vol24hxrp").or (JsVal.num (JsNum.fin 0))) = Except.ok v) ∧
  (∃ m : String, P.str ((token.prop "marketcap").or (JsVal.num (JsNum.fin 0))) = Except.ok m) ∧
  (∃ h : String, P.str ((token.prop "trustlines").or (JsVal.num (JsNum.fin 0))) = Except.ok h)

/-- What the loop pushes for a token: the summary of that token, carrying the
fingerprint computed for it. -/
def SummaryOf (P : Platform) (token out : JsVal) : Prop :=
  ∃ md5 : JsVal, tokenFingerprint P token = Except.ok md5 ∧
    out.prop "name" = (token.prop "currency").or (JsVal.str "Unknown") ∧
    out.prop "issuer" = (token.prop "issuer").or (JsVal.str "") ∧
    out.prop "md5" = md5

/-! ## server.js: the detail routes -/

/-- Identifiers bound at the top level of `server.js`. -/
def moduleScope : List String :=
  ["express", "axios", "CryptoJS", "fs", "path", "app", "port", "cache", "logoCacheFile",
   "loadLogoCache", "saveLogoCache", "getMD5Value", "getTokenLogo"]

/-- Globals of the runtime that `server.js` refers to. -/
def runtimeScope : List String :=
  ["console", "require", "__dirname", "Buffer", "Date", "JSON", "Array", "Error",
   "parseInt", "parseFloat"]

/-- Identifiers visible in the `catch (error)` block of a route handler
`async (req, res) => ...`.  The `const` declarations of the `try` block
(`issuer`, `currency`, `md5`, `account`, `key`, `response`, `data`) are local to
that block and are not visible here. -/
def catchScope : List String :=
  "error" :: "req" :: "res" :: (moduleScope ++ runtimeScope)

/-- Reading an identifier: a `ReferenceError` when no enclosing scope binds it. -/
def readVar (scope : List String) (x : String) : Except JsError Unit :=
  if x ∈ scope then Except.ok () else Except.error (JsError.referenceError x)

/-- The payload `{ description: 'N/A', totalSupply: 0, circulatingSupply: 0, price: 0 }`. -/
def zeroDetail : List (String × JsVal) :=
  [("description", JsVal.str "N/A"),
   ("totalSupply", JsVal.num (JsNum.fin 0)),
   ("circulatingSupply", JsVal.num (JsNum.fin 0)),
   ("price", JsVal.num (JsNum.fin 0))]

/-- The `catch` block of the description route: the arguments of
`console.error` are evaluated (the template reads `issuer` and `currency`, then
`error` is read), then `res.json` is called. -/
def descriptionCatch (scope : List String) : Except JsError JsVal := do
  readVar scope "console"
  readVar scope "issuer"
  readVar scope "currency"
  readVar scope "error"
  readVar scope "res"
  pure (JsVal.obj zeroDetail)

/-- The `catch` block of the rich-list route (the template reads `md5`). -/
def richlistCatch (scope : List String) : Except JsError JsVal := do
  readVar scope "console"
  readVar scope "md5"
  readVar scope "error"
  readVar scope "res"
  pure (JsVal.obj [("topHolders", JsVal.arr [])])

/-- The `catch` block of the offers route (the template reads `account`). -/
def offersCatch (scope : List String) : Except JsError JsVal := do
  readVar scope "console"
  readVar scope "account"
  readVar scope "error"
  readVar scope "res"
  pure (JsVal.obj [("orderBook", JsVal.arr [])])

/-- The outcome of a handler whose `catch` block has run. -/
def catchOutcome (r : Except JsError JsVal) : Outcome :=
  match r with
  | Except.ok body => Outcome.responded body
  | Except.error e => Outcome.raised e

/-- The response cache key of a description. -/
def descKey (issuer currency : String) : String :=
  "desc_" ++ issuer ++ "_" ++ currency

/-- The upstream URL of a description. -/
def descUrl (issuer currency : String) : String :=
  "https://api.xrpl.to/api/token/" ++ issuer ++ "_" ++ currency ++ "?desc=yes"

/-- The expression `v ? parseFloat(v) : 0`. -/
def parseOrZero (P : Platform) (v : JsVal) : Except JsError JsNum :=
  if v.truthy then P.parseFloatOf v else Except.ok (JsNum.fin 0)

/-- The detail object built from the upstream `response.data`; a parsing call
throws on a value that cannot be converted to a string. -/
def detailOf (P : Platform) (data : JsVal) : Except JsError (List (String × JsVal)) :=
  match parseOrZero P ((data.prop "token").prop "amount") with
  | Except.error e => Except.error e
  | Except.ok totalSupply =>
    match parseOrZero P ((data.prop "token").prop "supply") with
    | Except.error e => Except.error e
    | Except.ok circulatingSupply =>
      match parseOrZero P ((data.prop "token").prop "usd") with
      | Except.error e => Except.error e
      | Except.ok price =>
        Except.ok
          [("description", ((data.prop "token").prop "description").or (JsVal.str "N/A")),
           ("totalSupply", JsVal.num totalSupply),
           ("circulatingSupply", JsVal.num circulatingSupply),
           ("price", JsVal.num price)]

/-- The handler of `GET /api/description/:issuer/:currency`.  A rejected
request and a throwing parsing call both end in the `catch` block. -/
def descriptionHandler (P : Platform) (env : Env) (issuer currency : String) (w : World) :
    Outcome × World :=
  let key := descKey issuer currency
  match mapGet key w.cache with
  | some hit => (Outcome.responded (JsVal.obj hit), w)
  | none =>
    match httpGetJson env (descUrl issuer currency) w with
    | (some data, w1) =>
      match detailOf P data with
      | Except.ok detail =>
        (Outcome.responded (JsVal.obj detail), { w1 with cache := mapSet key detail w1.cache })
      | Except.error _ => (catchOutcome (descriptionCatch catchScope), w1)
    | (none, w1) => (catchOutcome (descriptionCatch catchScope), w1)

/-- The response cache key of a rich list. -/
def richlistKey (md5 : String) : String :=
  "richlist_" ++ md5

/-- The upstream URL of a rich list. -/
def richlistUrl (md5 : String) : String :=
  "https://api.xrpl.to/api/richlist/" ++ md5 ++ "?start=0&limit=3"

/-- The handler of `GET /api/richlist/:md5`. -/
def richlistHandler (env : Env) (md5 : String) (w : World) : Outcome × World :=
  let key := richlistKey md5
  match mapGet key w.cache with
  | some hit => (Outcome.responded (JsVal.obj hit), w)
  | none =>
    match httpGetJson env (richlistUrl md5) w with
    | (some data, w1) =>
      let payload := [("topHolders", (data.prop "richList").or (JsVal.arr []))]
      (Outcome.responded (JsVal.obj payload), { w1 with cache := mapSet key payload w1.cache })
    | (none, w1) => (catchOutcome (richlistCatch catchScope), w1)

/-- The response cache key of an account's offers. -/
def offersKey (account : String) : String :=
  "offers_" ++ account

/-- The upstream URL of an account's offers. -/
def offersUrl (account : String) : String :=
  "https://api.xrpl.to/api/account/offers/" ++ account

/-- The handler of `GET /api/offers/:account`. -/
def offersHandler (env : Env) (account : String) (w : World) : Outcome × World :=
  let key := offersKey account
  match mapGet key w.cache with
  | some hit => (Outcome.responded (JsVal.obj hit), w)
  | none =>
    match httpGetJson env (offersUrl account) w with
    | (some data, w1) =>
      let payload := [("orderBook", (data.prop "offers").or (JsVal.arr []))]
      (Outcome.responded (JsVal.obj payload), { w1 with cache := mapSet key payload w1.cache })
    | (none, w1) => (catchOutcome (offersCatch catchScope), w1)

/-! ## public/script.js: pagination -/

/-- The constant `limit`. -/
def limit : Nat := 100

/-- The module state of the client, with two records kept for the proofs: the
windows passed to `fetchTokens`, and whether a `fetch` is in flight. -/
structure ClientState where
  start : Nat
  allTokens : List JsVal
  loading : Bool
  requests : List (Nat × Nat)
  inFlight : Bool

/-- The state when the script is loaded. -/
def ClientState.init : ClientState :=
  { start := 0, allTokens := [], loading := false, requests := [], inFlight := false }

/-- The function `fetchTokens`: the parsed body when it is an array, `[]` when the request
fails (`none`) or the body is not an array. -/
def fetchTokens (response : Option JsVal) : List JsVal :=
  match response with
  | some (JsVal.arr data) => data
  | _ => []

/-- The function `renderTokens` up to its `await`: the guard, the flag and the request. -/
def renderTokensCall (s : ClientState) : ClientState :=
  if s.loading then s
  else { s with loading := true, requests := s.requests ++ [(s.start, limit)], inFlight := true }

/-- The function `renderTokens` after its `await`: the page is appended and `start`
advances; then the cards are drawn and the flag is cleared.  Drawing reads the
fields of every token (`token.volume.toLocaleString()` throws on a volume that
is `null`): when it throws, `drawn` is `false` and `loading = false` is not
reached. -/
def renderTokensResume (response : Option JsVal) (drawn : Bool) (s : ClientState) :
    ClientState :=
  { s with allTokens := s.allTokens ++ fetchTokens response,
           start := s.start + limit,
           loading := if drawn then false else s.loading,
           inFlight := false }

/-- What can happen to the client: `renderTokens` is invoked (on load or by the
scroll listener), or the pending `fetch` settles and the page is drawn
(`drawn = true`) or drawing throws (`drawn = false`). -/
inductive ClientEvent where
  | call
  | settled (response : Option JsVal) (drawn : Bool)

/-- One event.  A `fetch` can only settle while it is in flight. -/
def clientStep (s : ClientState) : ClientEvent → ClientState
  | ClientEvent.call => renderTokensCall s
  | ClientEvent.settled response drawn =>
    if s.inFlight then renderTokensResume response drawn s else s

/-- A sequence of events. -/
def clientRun (s : ClientState) (events : List ClientEvent) : ClientState :=
  events.foldl clientStep s

/-- The invariant of the client state machine: the windows requested so far
are the first `n` windows of width `limit`; `start` is the window being fetched
while a `fetch` is in flight and the next window otherwise; a `fetch` is in
flight only while `loading` is set. -/
def ClientInv (s : ClientState) : Prop :=
  s.requests = (List.range s.requests.length).map (fun k => (limit * k, limit)) ∧
  (s.inFlight = false → s.start = limit * s.requests.length) ∧
  (s.inFlight = true → s.start + limit = limit * s.requests.length) ∧
  (s.inFlight = true → s.loading = true)

/-! ## Concrete inputs -/

/-- A platform for evaluating the embedding on concrete inputs: it parses
nothing (every parse is `NaN`) and its digest is a stand-in.  No theorem below
depends on these choices. -/
def samplePlatform : Platform :=
  { md5Hex := fun s => s
    parseFloat := fun _ => JsNum.nan
    parseInt := fun _ => JsNum.nan
    numToString := fun _ => "NaN" }

/-- Every upstream request is rejected. -/
def Env.down : Env :=
  { getJson := fun _ _ => none
    getImage := fun _ _ => none
    putFile := fun _ => WriteResult.written }

/-- Every upstream request succeeds, with the given body and image bytes. -/
def Env.up (data : JsVal) (bytes : List Nat) : Env :=
  { getJson := fun _ _ => some data
    getImage := fun _ _ => some bytes
    putFile := fun _ => WriteResult.written }

/-- Every upstream request succeeds, and every write of `logos.json` ends as `r`. -/
def Env.disk (bytes : List Nat) (r : WriteResult) : Env :=
  { getJson := fun _ _ => none
    getImage := fun _ _ => some bytes
    putFile := fun _ => r }

/-- A freshly started server: empty cache, no effect yet. -/
def World.fresh (logoFile : Option LogoDoc) : World :=
  { cache := [], logoFile := logoFile, trace := [] }

/-- A server whose cache already holds one entry of each kind. -/
def World.warm : World :=
  { cache :=
      [("logo_abc123", [("image", JsVal.str "data:image/webp;base64,AAAA")]),
       ("desc_rIssuer_USD", zeroDetail),
       ("richlist_abc123", [("topHolders", JsVal.arr [])]),
       ("offers_rIssuer", [("orderBook", JsVal.arr [])])],
    logoFile := none,
    trace := [] }

/-! ## Two calls in a row -/

/-- Two successive calls of an operation on the server state: the first
result, the second result and the final state. -/
def callTwice {α : Type} (op : World → α × World) (w : World) : α × α × World :=
  ((op w).1, (op (op w).2).1, (op (op w).2).2)

/-- The call `getTokenLogo(md5)` on `w` ends in its `catch` block: it misses the
cache and the store, and the request to the image host is rejected or the
write of the store that follows is. -/
def logoFetchFails (P : Platform) (env : Env) (md5 : JsVal) (w : World) : Prop :=
  ∃ s : String, P.str md5 = Except.ok s ∧
    mapGet ("logo_" ++ s) w.cache = none ∧
    (mapGet s w.logos = some "" ∨ (mapGet s w.logos = none ∧ s ∉ objectPrototypeNames)) ∧
    (env.getImage (netCount w.trace) ("https://s1.xrpl.to/token/" ++ s) = none ∨
      env.putFile (writeCount w.trace) ≠ WriteResult.written)

/-! # Properties

## Keyed collections -/

theorem mapGet_mapSet_self {α : Type} (k : String) (v : α) (m : List (String × α)) :
    mapGet k (mapSet k v m) = some v := by
  induction m with
  | nil => simp [mapSet, mapGet]
  | cons p rest ih =>
    obtain ⟨k', v'⟩ := p
    by_cases h : k' = k
    · simp [mapSet, mapGet, h]
    · simp [mapSet, mapGet, h, ih]

theorem mapGet_mapSet_ne {α : Type} (k k' : String) (v : α) (m : List (String × α))
    (h : k' ≠ k) : mapGet k' (mapSet k v m) = mapGet k' m := by
  induction m with
  | nil => simp [mapSet, mapGet, Ne.symm h]
  | cons p rest ih =>
    obtain ⟨k₀, v₀⟩ := p
    by_cases h₀ : k₀ = k
    · subst h₀
      simp [mapSet, mapGet, Ne.symm h]
    · by_cases h₁ : k₀ = k'
      · subst h₁
        simp [mapSet, mapGet, h₀]
      · simp [mapSet, mapGet, h₀, h₁, ih]

theorem mem_mapKeys_mapSet {α : Type} (k x : String) (v : α) (m : List (String × α))
    (hx : x ∈ mapKeys m) : x ∈ mapKeys (mapSet k v m) := by
  induction m with
  | nil => simp [mapKeys] at hx
  | cons p rest ih =>
    obtain ⟨k₀, v₀⟩ := p
    by_cases h₀ : k₀ = k
    · subst h₀
      simpa [mapSet, mapKeys] using hx
    · simp only [mapKeys, List.map_cons, List.mem_cons] at hx
      rcases hx with hx | hx
      · simp [mapSet, mapKeys, h₀, hx]
      · have := ih (by simpa [mapKeys] using hx)
        simp only [mapSet, h₀, if_false, mapKeys, List.map_cons, List.mem_cons]
        exact Or.inr (by simpa [mapKeys] using this)

theorem netCount_append (a b : List Effect) : netCount (a ++ b) = netCount a + netCount b := by
  induction a with
  | nil => simp [netCount]
  | cons e rest ih =>
    cases e
    · simp [netCount, ih]; omega
    · simp [netCount, ih]
    · simp [netCount, ih]

theorem writeCount_append (a b : List Effect) :
    writeCount (a ++ b) = writeCount a + writeCount b := by
  induction a with
  | nil => simp [writeCount]
  | cons e rest ih =>
    cases e
    · simp [writeCount, ih]
    · simp [writeCount, ih]
    · simp [writeCount, ih]; omega

/-! ## Logo resolution, case by case -/

@[simp] theorem Platform.str_str (P : Platform) (s : String) :
    P.str (JsVal.str s) = Except.ok s := rfl

theorem logoEntry_own (s v : String) (logos : LogoDoc) (h : mapGet s logos = some v) :
    logoEntry s logos = LogoEntry.own v := by
  simp [logoEntry, h]

theorem logoEntry_absent (s : String) (logos : LogoDoc) (h : mapGet s logos = none)
    (hp : s ∉ objectPrototypeNames) : logoEntry s logos = LogoEntry.absent := by
  simp [logoEntry, h, hp]

theorem logoEntry_inherited (s : String) (logos : LogoDoc) (h : mapGet s logos = none)
    (hp : s ∈ objectPrototypeNames) : logoEntry s logos = LogoEntry.inherited := by
  simp [logoEntry, h, hp]

theorem getTokenLogo_throw (P : Platform) (env : Env) (md5 : JsVal) (w : World) (e : JsError)
    (hs : P.str md5 = Except.error e) :
    getTokenLogo P env md5 w = (Except.error e, w) := by
  simp [getTokenLogo, hs]

theorem getTokenLogo_hit (P : Platform) (env : Env) (md5 : JsVal) (s : String) (w : World)
    (hit : List (String × JsVal)) (hs : P.str md5 = Except.ok s)
    (h : mapGet ("logo_" ++ s) w.cache = some hit) :
    getTokenLogo P env md5 w = (Except.ok (JsVal.obj hit), w) := by
  simp [getTokenLogo, hs, h]

theorem getTokenLogo_stored (P : Platform) (env : Env) (md5 : JsVal) (s v : String) (w : World)
    (hs : P.str md5 = Except.ok s)
    (hc : mapGet ("logo_" ++ s) w.cache = none)
    (he : mapGet s w.logos = some v) (hv : v ≠ "") :
    getTokenLogo P env md5 w =
      (Except.ok (JsVal.obj [("image", JsVal.str v)]),
        { cache := mapSet ("logo_" ++ s) [("image", JsVal.str v)] w.cache,
          logoFile := w.logoFile,
          trace := w.trace ++ [Effect.readFile] }) := by
  simp [getTokenLogo, hs, hc, loadLogoCache, logoEntry_own s v w.logos he, hv]

theorem getTokenLogo_inherited (P : Platform) (env : Env) (md5 : JsVal) (s : String) (w : World)
    (hs : P.str md5 = Except.ok s)
    (hc : mapGet ("logo_" ++ s) w.cache = none)
    (he : mapGet s w.logos = none) (hp : s ∈ objectPrototypeNames) :
    getTokenLogo P env md5 w =
      (Except.error JsError.typeError,
        { cache := w.cache, logoFile := w.logoFile, trace := w.trace ++ [Effect.readFile] }) := by
  simp [getTokenLogo, hs, hc, loadLogoCache, logoEntry_inherited s w.logos he hp]

theorem getTokenLogo_fetch (P : Platform) (env : Env) (md5 : JsVal) (s : String) (w : World)
    (hs : P.str md5 = Except.ok s)
    (hc : mapGet ("logo_" ++ s) w.cache = none)
    (he : mapGet s w.logos = some "" ∨ (mapGet s w.logos = none ∧ s ∉ objectPrototypeNames)) :
    getTokenLogo P env md5 w =
      (Except.ok (fetchLogo env s ("logo_" ++ s) w.logos
          { cache := w.cache, logoFile := w.logoFile, trace := w.trace ++ [Effect.readFile] }).1,
        (fetchLogo env s ("logo_" ++ s) w.logos
          { cache := w.cache, logoFile := w.logoFile, trace := w.trace ++ [Effect.readFile] }).2) := by
  rcases he with he | ⟨he, hp⟩
  · simp [getTokenLogo, hs, hc, loadLogoCache, logoEntry_own s "" w.logos he]
  · simp [getTokenLogo, hs, hc, loadLogoCache, logoEntry_absent s w.logos he hp]

theorem fetchLogo_failed (env : Env) (s key : String) (logos : LogoDoc) (w : World)
    (hn : env.getImage (netCount w.trace) ("https://s1.xrpl.to/token/" ++ s) = none) :
    fetchLogo env s key logos w =
      (JsVal.obj [("image", JsVal.str "")],
        { cache := w.cache, logoFile := w.logoFile,
          trace := w.trace ++ [Effect.httpGet ("https://s1.xrpl.to/token/" ++ s)] }) := by
  simp [fetchLogo, httpGetImage, hn]

theorem fetchLogo_saved (env : Env) (s key : String) (logos : LogoDoc) (w : World)
    (bytes : List Nat)
    (hn : env.getImage (netCount w.trace) ("https://s1.xrpl.to/token/" ++ s) = some bytes)
    (hw : env.putFile (writeCount w.trace) = WriteResult.written) :
    fetchLogo env s key logos w =
      (JsVal.obj [("image", JsVal.str ("data:image/webp;base64," ++ toBase64 bytes))],
        { cache := mapSet key
            [("image", JsVal.str ("data:image/webp;base64," ++ toBase64 bytes))] w.cache,
          logoFile := some (mapSet s ("data:image/webp;base64," ++ toBase64 bytes) logos),
          trace := w.trace ++ [Effect.httpGet ("https://s1.xrpl.to/token/" ++ s)] ++
            [Effect.writeFile (mapSet s ("data:image/webp;base64," ++ toBase64 bytes) logos)] }) := by
  simp [fetchLogo, httpGetImage, hn, saveLogoCache, writeCount_append, writeCount, hw]

theorem fetchLogo_rejected (env : Env) (s key : String) (logos : LogoDoc) (w : World)
    (bytes : List Nat)
    (hn : env.getImage (netCount w.trace) ("https://s1.xrpl.to/token/" ++ s) = some bytes)
    (hw : env.putFile (writeCount w.trace) = WriteResult.rejected) :
    fetchLogo env s key logos w =
      (JsVal.obj [("image", JsVal.str "")],
        { cache := w.cache,
          logoFile := w.logoFile,
          trace := w.trace ++ [Effect.httpGet ("https://s1.xrpl.to/token/" ++ s)] ++
            [Effect.writeFile (mapSet s ("data:image/webp;base64," ++ toBase64 bytes) logos)] }) := by
  simp [fetchLogo, httpGetImage, hn, saveLogoCache, writeCount_append, writeCount, hw]

theorem fetchLogo_truncated (env : Env) (s key : String) (logos : LogoDoc) (w : World)
    (bytes : List Nat)
    (hn : env.getImage (netCount w.trace) ("https://s1.xrpl.to/token/" ++ s) = some bytes)
    (hw : env.putFile (writeCount w.trace) = WriteResult.truncated) :
    fetchLogo env s key logos w =
      (JsVal.obj [("image", JsVal.str "")],
        { cache := w.cache,
          logoFile := none,
          trace := w.trace ++ [Effect.httpGet ("https://s1.xrpl.to/token/" ++ s)] ++
            [Effect.writeFile (mapSet s ("data:image/webp;base64," ++ toBase64 bytes) logos)] }) := by
  simp [fetchLogo, httpGetImage, hn, saveLogoCache, writeCount_append, writeCount, hw]

theorem fetchLogo_netCount (env : Env) (s key : String) (logos : LogoDoc) (w : World) :
    netCount (fetchLogo env s key logos w).2.trace = netCount w.trace + 1 := by
  cases hn : env.getImage (netCount w.trace) ("https://s1.xrpl.to/token/" ++ s) with
  | none => rw [fetchLogo_failed env s key logos w hn]; simp [netCount_append, netCount]
  | some bytes =>
    cases hw : env.putFile (writeCount w.trace) with
    | written =>
      rw [fetchLogo_saved env s key logos w bytes hn hw]; simp [netCount_append, netCount]
    | rejected =>
      rw [fetchLogo_rejected env s key logos w bytes hn hw]; simp [netCount_append, netCount]
    | truncated =>
      rw [fetchLogo_truncated env s key logos w bytes hn hw]; simp [netCount_append, netCount]

theorem getTokenLogo_miss_netCount (P : Platform) (env : Env) (md5 : JsVal) (s : String)
    (w : World) (hs : P.str md5 = Except.ok s)
    (hc : mapGet ("logo_" ++ s) w.cache = none)
    (he : mapGet s w.logos = some "" ∨ (mapGet s w.logos = none ∧ s ∉ objectPrototypeNames)) :
    netCount (getTokenLogo P env md5 w).2.trace = netCount w.trace + 1 := by
  rw [getTokenLogo_fetch P env md5 s w hs hc he, fetchLogo_netCount]
  simp [netCount_append, netCount]

/-! ## Logo resolution: store hit and failed fetch -/

/-- C3 (amended): for a fingerprint `fp` that is absent from the response cache
and present in the logo store with a non-empty value `v`, `getTokenLogo(fp)`
returns the object with `image` equal to `v`, stores that object in the
response cache under `"logo_" + fp`, leaves `logos.json` as it is, and its only
effect is the read of the store: no request to the image host, no write. -/
theorem getTokenLogo_store_hit (P : Platform) (env : Env) (fp v : String) (w : World)
    (hc : mapGet ("logo_" ++ fp) w.cache = none)
    (hs : mapGet fp w.logos = some v) (hv : v ≠ "") :
    (getTokenLogo P env (JsVal.str fp) w).1 = Except.ok (JsVal.obj [("image", JsVal.str v)]) ∧
    mapGet ("logo_" ++ fp) (getTokenLogo P env (JsVal.str fp) w).2.cache
      = some [("image", JsVal.str v)] ∧
    (getTokenLogo P env (JsVal.str fp) w).2.logoFile = w.logoFile ∧
    (getTokenLogo P env (JsVal.str fp) w).2.trace = w.trace ++ [Effect.readFile] := by
  rw [getTokenLogo_stored P env (JsVal.str fp) fp v w rfl hc hs hv]
  refine ⟨rfl, ?_, rfl, rfl⟩
  exact mapGet_mapSet_self _ _ _

/-- Witness of C3 (amended): a stored data URI under `"abc123"`, fresh server. -/
theorem getTokenLogo_store_hit_witness :
    mapGet ("logo_" ++ "abc123") (World.fresh (some [("abc123", "data:,x")])).cache = none ∧
    mapGet "abc123" (World.fresh (some [("abc123", "data:,x")])).logos = some "data:,x" ∧
    (getTokenLogo samplePlatform Env.down (JsVal.str "abc123")
        (World.fresh (some [("abc123", "data:,x")]))).2.trace = [] ++ [Effect.readFile] :=
  ⟨rfl, rfl,
    (getTokenLogo_store_hit samplePlatform Env.down "abc123" "data:,x"
      (World.fresh (some [("abc123", "data:,x")])) rfl rfl (by decide)).2.2.2⟩

/-- C3 as stated fails when the stored value is the empty string: the
truthiness test `if (logos[md5])` takes the entry for missing, so the image host
is asked and the store is rewritten. -/
theorem getTokenLogo_empty_stored_value :
    mapGet "abc" (World.fresh (some [("abc", "")])).logos = some "" ∧
    mapGet ("logo_" ++ "abc") (World.fresh (some [("abc", "")])).cache = none ∧
    (getTokenLogo samplePlatform (Env.up JsVal.null []) (JsVal.str "abc")
        (World.fresh (some [("abc", "")]))).1
      = Except.ok (JsVal.obj [("image", JsVal.str "data:image/webp;base64,")]) ∧
    (getTokenLogo samplePlatform (Env.up JsVal.null []) (JsVal.str "abc")
        (World.fresh (some [("abc", "")]))).2.trace
      = [Effect.readFile, Effect.httpGet "https://s1.xrpl.to/token/abc",
         Effect.writeFile [("abc", "data:image/webp;base64,")]] :=
  ⟨rfl, rfl, rfl, rfl⟩

theorem getTokenLogo_requests_of_inherited (P : Platform) (env : Env) (fp : String) (w : World)
    (hc : mapGet ("logo_" ++ fp) w.cache = none)
    (hs : mapGet fp w.logos = none) (hp : fp ∈ objectPrototypeNames) :
    netCount (getTokenLogo P env (JsVal.str fp) w).2.trace = netCount w.trace := by
  rw [getTokenLogo_inherited P env (JsVal.str fp) fp w rfl hc hs hp]
  simp [netCount_append, netCount]

/-- C4: for a fingerprint `fp` in neither the response cache nor the logo
store, when the call issues its request to the image host and the request is
rejected, `getTokenLogo(fp)` returns the object with `image` equal to `""` and
leaves the response cache and `logos.json` exactly as they were; a later call
for `fp` issues one more request whatever the host then answers; an empty store
stays empty. -/
theorem getTokenLogo_fetch_failure (P : Platform) (env : Env) (fp : String) (w : World)
    (hc : mapGet ("logo_" ++ fp) w.cache = none)
    (hs : mapGet fp w.logos = none)
    (hreq : netCount (getTokenLogo P env (JsVal.str fp) w).2.trace = netCount w.trace + 1)
    (hn : env.getImage (netCount w.trace) ("https://s1.xrpl.to/token/" ++ fp) = none) :
    (getTokenLogo P env (JsVal.str fp) w).1 = Except.ok (JsVal.obj [("image", JsVal.str "")]) ∧
    (getTokenLogo P env (JsVal.str fp) w).2.cache = w.cache ∧
    (getTokenLogo P env (JsVal.str fp) w).2.logoFile = w.logoFile ∧
    (∀ env' : Env,
      netCount (getTokenLogo P env' (JsVal.str fp) (getTokenLogo P env (JsVal.str fp) w).2).2.trace
        = netCount (getTokenLogo P env (JsVal.str fp) w).2.trace + 1) ∧
    (w.logos = [] → (getTokenLogo P env (JsVal.str fp) w).2.logos = []) := by
  have hp : fp ∉ objectPrototypeNames := by
    intro hp
    rw [getTokenLogo_requests_of_inherited P env fp w hc hs hp] at hreq
    omega
  have hfirst := getTokenLogo_fetch P env (JsVal.str fp) fp w rfl hc (Or.inr ⟨hs, hp⟩)
  rw [fetchLogo_failed env fp ("logo_" ++ fp) w.logos
    ⟨w.cache, w.logoFile, w.trace ++ [Effect.readFile]⟩
    (by simpa [netCount_append, netCount] using hn)] at hfirst
  have h₁ : (getTokenLogo P env (JsVal.str fp) w).1
      = Except.ok (JsVal.obj [("image", JsVal.str "")]) := by rw [hfirst]
  have h₂ : (getTokenLogo P env (JsVal.str fp) w).2.cache = w.cache := by rw [hfirst]
  have h₃ : (getTokenLogo P env (JsVal.str fp) w).2.logoFile = w.logoFile := by rw [hfirst]
  have h₄ : (getTokenLogo P env (JsVal.str fp) w).2.logos = w.logos := by
    simp only [World.logos, h₃]
  refine ⟨h₁, h₂, h₃, ?_, fun h => by rw [h₄]; exact h⟩
  intro env'
  apply getTokenLogo_miss_netCount P env' (JsVal.str fp) fp _ rfl
  · rw [h₂]; exact hc
  · rw [h₄]; exact Or.inr ⟨hs, hp⟩

/-- Witness of C4: fresh server, empty store, image host down. -/
theorem getTokenLogo_fetch_failure_witness :
    mapGet ("logo_" ++ "abc") (World.fresh (some [])).cache = none ∧
    mapGet "abc" (World.fresh (some [])).logos = none ∧
    netCount (getTokenLogo samplePlatform Env.down (JsVal.str "abc")
      (World.fresh (some []))).2.trace = netCount (World.fresh (some [])).trace + 1 ∧
    (getTokenLogo samplePlatform Env.down (JsVal.str "abc") (World.fresh (some []))).2.logoFile
      = (World.fresh (some [])).logoFile :=
  ⟨rfl, rfl, rfl,
    (getTokenLogo_fetch_failure samplePlatform Env.down "abc" (World.fresh (some []))
      rfl rfl rfl rfl).2.2.1⟩

/-! ## The task and the function agree -/

theorem logoRun_done (P : Platform) (env : Env) (n : Nat) (r : Except JsError JsVal)
    (w : World) : logoRun P env n (LogoTask.done r) w = (LogoTask.done r, w) := by
  induction n with
  | zero => rfl
  | succ n ih => simp [logoRun, logoStep, ih]

theorem logoRun_fetching (P : Platform) (env : Env) (s : String) (logos : LogoDoc) (w : World) :
    logoRun P env 2
        (sendLogoRequest env s logos w).1 (sendLogoRequest env s logos w).2
      = (LogoTask.done (Except.ok (fetchLogo env s ("logo_" ++ s) logos w).1),
          (fetchLogo env s ("logo_" ++ s) logos w).2) := by
  cases hn : env.getImage (netCount w.trace) ("https://s1.xrpl.to/token/" ++ s) with
  | none => simp [logoRun, logoStep, sendLogoRequest, fetchLogo, httpGetImage, hn]
  | some bytes =>
    cases hw : env.putFile (writeCount w.trace) with
    | written =>
      simp [logoRun, logoStep, sendLogoRequest, fetchLogo, httpGetImage, hn, saveLogoCache,
        writeCount_append, writeCount, hw]
    | rejected =>
      simp [logoRun, logoStep, sendLogoRequest, fetchLogo, httpGetImage, hn, saveLogoCache,
        writeCount_append, writeCount, hw]
    | truncated =>
      simp [logoRun, logoStep, sendLogoRequest, fetchLogo, httpGetImage, hn, saveLogoCache,
        writeCount_append, writeCount, hw]

/-- Run alone, the task reaches `done` within four steps, with the result and
the state of the function `getTokenLogo`. -/
theorem logoRun_eq_getTokenLogo (P : Platform) (env : Env) (md5 : JsVal) (w : World) :
    logoRun P env 4 (LogoTask.start md5) w
      = (LogoTask.done (getTokenLogo P env md5 w).1, (getTokenLogo P env md5 w).2) := by
  cases hs : P.str md5 with
  | error e =>
    rw [getTokenLogo_throw P env md5 w e hs]
    simp [logoRun, logoStep, hs]
  | ok s =>
    cases hc : mapGet ("logo_" ++ s) w.cache with
    | some hit =>
      rw [getTokenLogo_hit P env md5 s w hit hs hc]
      simp [logoRun, logoStep, hs, hc]
    | none =>
      cases he : mapGet s w.logos with
      | some v =>
        by_cases hv : v = ""
        · subst hv
          rw [getTokenLogo_fetch P env md5 s w hs hc (Or.inl he)]
          have h2 := logoRun_fetching P env s w.logos
            ⟨w.cache, w.logoFile, w.trace ++ [Effect.readFile]⟩
          simp only [logoRun] at h2 ⊢
          simp only [logoStep, hs, hc, loadLogoCache, logoEntry_own s "" w.logos he, ne_eq,
            not_true_eq_false, if_false]
          exact h2
        · rw [getTokenLogo_stored P env md5 s v w hs hc he hv]
          simp [logoRun, logoStep, hs, hc, loadLogoCache, logoEntry_own s v w.logos he, hv]
      | none =>
        by_cases hp : s ∈ objectPrototypeNames
        · rw [getTokenLogo_inherited P env md5 s w hs hc he hp]
          simp [logoRun, logoStep, hs, hc, loadLogoCache, logoEntry_inherited s w.logos he hp]
        · rw [getTokenLogo_fetch P env md5 s w hs hc (Or.inr ⟨he, hp⟩)]
          have h2 := logoRun_fetching P env s w.logos
            ⟨w.cache, w.logoFile, w.trace ++ [Effect.readFile]⟩
          simp only [logoRun] at h2 ⊢
          simp only [logoStep, hs, hc, loadLogoCache, logoEntry_absent s w.logos he hp]
          exact h2

/-! ## Logo store monotonicity -/

theorem fetchLogo_logoFile (env : Env) (s key : String) (logos : LogoDoc) (w : World)
    (hdisk : ∀ n : Nat, env.putFile n ≠ WriteResult.truncated) :
    (fetchLogo env s key logos w).2.logoFile = w.logoFile ∨
    ∃ url : String, (fetchLogo env s key logos w).2.logoFile = some (mapSet s url logos) := by
  cases hn : env.getImage (netCount w.trace) ("https://s1.xrpl.to/token/" ++ s) with
  | none => left; rw [fetchLogo_failed env s key logos w hn]
  | some bytes =>
    cases hw : env.putFile (writeCount w.trace) with
    | written => right; rw [fetchLogo_saved env s key logos w bytes hn hw]; exact ⟨_, rfl⟩
    | rejected => left; rw [fetchLogo_rejected env s key logos w bytes hn hw]
    | truncated => exact absurd hw (hdisk _)

theorem getTokenLogo_logoFile (P : Platform) (env : Env) (md5 : JsVal) (w : World)
    (hdisk : ∀ n : Nat, env.putFile n ≠ WriteResult.truncated) :
    (getTokenLogo P env md5 w).2.logoFile = w.logoFile ∨
    ∃ s url : String, (mapGet s w.logos = some "" ∨ mapGet s w.logos = none) ∧
      (getTokenLogo P env md5 w).2.logoFile = some (mapSet s url w.logos) := by
  cases hs : P.str md5 with
  | error e => left; rw [getTokenLogo_throw P env md5 w e hs]
  | ok s =>
    cases hc : mapGet ("logo_" ++ s) w.cache with
    | some hit => left; rw [getTokenLogo_hit P env md5 s w hit hs hc]
    | none =>
      have hfetch : ∀ he : mapGet s w.logos = some "" ∨
          (mapGet s w.logos = none ∧ s ∉ objectPrototypeNames),
          (getTokenLogo P env md5 w).2.logoFile = w.logoFile ∨
          ∃ s url : String, (mapGet s w.logos = some "" ∨ mapGet s w.logos = none) ∧
            (getTokenLogo P env md5 w).2.logoFile = some (mapSet s url w.logos) := by
        intro he
        rw [getTokenLogo_fetch P env md5 s w hs hc he]
        rcases fetchLogo_logoFile env s ("logo_" ++ s) w.logos
          ⟨w.cache, w.logoFile, w.trace ++ [Effect.readFile]⟩ hdisk with h | ⟨url, h⟩
        · exact Or.inl h
        · exact Or.inr ⟨s, url, he.imp id (fun h => h.1), h⟩
      cases he : mapGet s w.logos with
      | some v =>
        by_cases hv : v = ""
        · subst hv; exact hfetch (Or.inl he)
        · left; rw [getTokenLogo_stored P env md5 s v w hs hc he hv]
      | none =>
        by_cases hp : s ∈ objectPrototypeNames
        · left; rw [getTokenLogo_inherited P env md5 s w hs hc he hp]
        · exact hfetch (Or.inr ⟨he, hp⟩)

theorem getTokenLogo_keeps_value (P : Platform) (env : Env) (md5 : JsVal) (w : World)
    (hdisk : ∀ n : Nat, env.putFile n ≠ WriteResult.truncated)
    (k v : String) (hk : mapGet k w.logos = some v) (hv : v ≠ "") :
    mapGet k (getTokenLogo P env md5 w).2.logos = some v := by
  rcases getTokenLogo_logoFile P env md5 w hdisk with h | ⟨s, url, hs, h⟩
  · simpa [World.logos, h] using hk
  · have hne : k ≠ s := by
      intro heq
      subst heq
      rcases hs with hs | hs
      · rw [hs] at hk
        exact hv (Option.some.inj hk).symm
      · rw [hs] at hk
        exact Option.noConfusion hk
    simp only [World.logos, h, Option.getD_some]
    rw [mapGet_mapSet_ne _ _ _ _ hne]
    exact hk

theorem getTokenLogo_keeps_key (P : Platform) (env : Env) (md5 : JsVal) (w : World)
    (hdisk : ∀ n : Nat, env.putFile n ≠ WriteResult.truncated)
    (k : String) (hk : k ∈ mapKeys w.logos) :
    k ∈ mapKeys (getTokenLogo P env md5 w).2.logos := by
  rcases getTokenLogo_logoFile P env md5 w hdisk with h | ⟨s, url, _, h⟩
  · simpa [World.logos, h] using hk
  · simp only [World.logos, h, Option.getD_some]
    exact mem_mapKeys_mapSet _ _ _ _ hk

/-- C5 (amended): over any sequence of logo resolutions that run one after the
other, with any fingerprints and any answers of the image host, and as long as
no write of `logos.json` is cut short, every key of the logo store that holds a
non-empty value keeps that value, every key present before is still present
afterwards, and the number of distinct keys does not decrease. -/
theorem logo_store_monotone (P : Platform) (env : Env) (fps : List JsVal) (w : World)
    (hdisk : ∀ n : Nat, env.putFile n ≠ WriteResult.truncated) :
    (∀ k v : String, mapGet k w.logos = some v → v ≠ "" →
      mapGet k (resolveLogos P env fps w).logos = some v) ∧
    (∀ k : String, k ∈ mapKeys w.logos → k ∈ mapKeys (resolveLogos P env fps w).logos) ∧
    (mapKeys w.logos).toFinset.card ≤ (mapKeys (resolveLogos P env fps w).logos).toFinset.card := by
  have hkeys : ∀ (fps : List JsVal) (w : World) (k : String),
      k ∈ mapKeys w.logos → k ∈ mapKeys (resolveLogos P env fps w).logos := by
    intro fps
    induction fps with
    | nil => intro w k hk; exact hk
    | cons md5 rest ih =>
      intro w k hk
      exact ih _ k (getTokenLogo_keeps_key P env md5 w hdisk k hk)
  have hvals : ∀ (fps : List JsVal) (w : World) (k v : String),
      mapGet k w.logos = some v → v ≠ "" →
      mapGet k (resolveLogos P env fps w).logos = some v := by
    intro fps
    induction fps with
    | nil => intro w k v hk _; exact hk
    | cons md5 rest ih =>
      intro w k v hk hv
      exact ih _ k v (getTokenLogo_keeps_value P env md5 w hdisk k v hk hv) hv
  refine ⟨hvals fps w, hkeys fps w, ?_⟩
  apply Finset.card_le_card
  intro k hk
  rw [List.mem_toFinset] at hk ⊢
  exact hkeys fps w k hk

/-- Witness of C5 (amended): a store with one logo, a second fingerprint is
resolved while the image host answers and the disk accepts the write. -/
theorem logo_store_monotone_witness :
    (∀ n : Nat, (Env.up JsVal.null [77, 97, 110]).putFile n ≠ WriteResult.truncated) ∧
    mapGet "abc" (World.fresh (some [("abc", "data:,x")])).logos = some "data:,x" ∧
    mapGet "abc"
      (resolveLogos samplePlatform (Env.up JsVal.null [77, 97, 110])
        [JsVal.str "abc", JsVal.str "def"] (World.fresh (some [("abc", "data:,x")]))).logos
      = some "data:,x" :=
  ⟨fun _ h => WriteResult.noConfusion h, rfl,
    (logo_store_monotone samplePlatform (Env.up JsVal.null [77, 97, 110])
      [JsVal.str "abc", JsVal.str "def"] (World.fresh (some [("abc", "data:,x")]))
      (fun _ h => WriteResult.noConfusion h)).1
      "abc" "data:,x" rfl (by decide)⟩

/-- C5 as stated fails in three ways.  A key whose stored value is the empty
string is overwritten by a successful resolution.  When two resolutions
overlap, each rewrites the whole document from the copy it loaded: the key
`"aaa"`, on disk after the first write, is gone after the second.  A write that
is cut short leaves a file that does not parse, and the key `"old"` is gone. -/
theorem logo_store_not_monotone :
    (mapGet "abc" (World.fresh (some [("abc", "")])).logos = some "" ∧
      mapGet "abc"
        (resolveLogos samplePlatform (Env.up JsVal.null []) [JsVal.str "abc"]
          (World.fresh (some [("abc", "")]))).logos
        = some "data:image/webp;base64,") ∧
    (mapGet "aaa"
        (logoInterleave samplePlatform (Env.up JsVal.null [])
          [false, true, false, true, false]
          (LogoTask.start (JsVal.str "aaa")) (LogoTask.start (JsVal.str "bbb"))
          (World.fresh (some [("old", "data:,x")]))).2.2.logos
        = some "data:image/webp;base64," ∧
      (logoInterleave samplePlatform (Env.up JsVal.null [])
          [false, true, false, true, false, true, false, true]
          (LogoTask.start (JsVal.str "aaa")) (LogoTask.start (JsVal.str "bbb"))
          (World.fresh (some [("old", "data:,x")]))).2.2.logos
        = [("old", "data:,x"), ("bbb", "data:image/webp;base64,")]) ∧
    (mapGet "old" (World.fresh (some [("old", "data:,x")])).logos = some "data:,x" ∧
      (resolveLogos samplePlatform (Env.disk [] WriteResult.truncated) [JsVal.str "abc"]
          (World.fresh (some [("old", "data:,x")]))).logos = []) :=
  ⟨⟨rfl, rfl⟩, ⟨rfl, rfl⟩, ⟨rfl, rfl⟩⟩

/-! ## Cache hits -/

/-- C7: when the response cache holds an entry under the key of an operation
(`"logo_" + fp`, `"desc_" + issuer + "_" + currency`, `"richlist_" + fp`,
`"offers_" + account`), the operation answers with exactly the cached payload
and the server state is the one before the call: no HTTP request, no read or
write of the logo store, and the response cache unchanged. -/
theorem cache_hit_short_circuit (P : Platform) (env : Env) (w : World)
    (fp issuer currency account : String) (v₁ v₂ v₃ v₄ : List (String × JsVal)) :
    (mapGet ("logo_" ++ fp) w.cache = some v₁ →
      getTokenLogo P env (JsVal.str fp) w = (Except.ok (JsVal.obj v₁), w)) ∧
    (mapGet ("desc_" ++ issuer ++ "_" ++ currency) w.cache = some v₂ →
      descriptionHandler P env issuer currency w = (Outcome.responded (JsVal.obj v₂), w)) ∧
    (mapGet ("richlist_" ++ fp) w.cache = some v₃ →
      richlistHandler env fp w = (Outcome.responded (JsVal.obj v₃), w)) ∧
    (mapGet ("offers_" ++ account) w.cache = some v₄ →
      offersHandler env account w = (Outcome.responded (JsVal.obj v₄), w)) := by
  refine ⟨fun h => getTokenLogo_hit P env (JsVal.str fp) fp w v₁ rfl h, ?_, ?_, ?_⟩
  · intro h
    simp [descriptionHandler, descKey, h]
  · intro h
    simp [richlistHandler, richlistKey, h]
  · intro h
    simp [offersHandler, offersKey, h]

/-- Witness of C7: a server with one cached entry of each kind, upstream down. -/
theorem cache_hit_short_circuit_witness :
    mapGet ("logo_" ++ "abc123") World.warm.cache
      = some [("image", JsVal.str "data:image/webp;base64,AAAA")] ∧
    mapGet ("desc_" ++ "rIssuer" ++ "_" ++ "USD") World.warm.cache = some zeroDetail ∧
    mapGet ("richlist_" ++ "abc123") World.warm.cache = some [("topHolders", JsVal.arr [])] ∧
    mapGet ("offers_" ++ "rIssuer") World.warm.cache = some [("orderBook", JsVal.arr [])] ∧
    getTokenLogo samplePlatform Env.down (JsVal.str "abc123") World.warm
      = (Except.ok (JsVal.obj [("image", JsVal.str "data:image/webp;base64,AAAA")]),
          World.warm) ∧
    descriptionHandler samplePlatform Env.down "rIssuer" "USD" World.warm
      = (Outcome.responded (JsVal.obj zeroDetail), World.warm) ∧
    richlistHandler Env.down "abc123" World.warm
      = (Outcome.responded (JsVal.obj [("topHolders", JsVal.arr [])]), World.warm) ∧
    offersHandler Env.down "rIssuer" World.warm
      = (Outcome.responded (JsVal.obj [("orderBook", JsVal.arr [])]), World.warm) :=
  have h := cache_hit_short_circuit samplePlatform Env.down World.warm "abc123" "rIssuer" "USD"
    "rIssuer" [("image", JsVal.str "data:image/webp;base64,AAAA")] zeroDetail
    [("topHolders", JsVal.arr [])] [("orderBook", JsVal.arr [])]
  ⟨rfl, rfl, rfl, rfl, h.1 rfl, h.2.1 rfl, h.2.2.1 rfl, h.2.2.2 rfl⟩

/-! ## Two calls in a row -/

theorem callTwice_eq {α : Type} (op : World → α × World) (w w₁ w₂ : World) (r : α)
    (h₁ : op w = (r, w₁)) (h₂ : op w₁ = (r, w₂)) :
    callTwice op w = (r, r, w₂) := by
  simp [callTwice, h₁, h₂]

theorem getTokenLogo_twice (P : Platform) (env : Env) (md5 : JsVal) (w : World)
    (h : ¬ logoFetchFails P env md5 w) :
    (callTwice (getTokenLogo P env md5) w).2.1 = (callTwice (getTokenLogo P env md5) w).1 ∧
    netCount (callTwice (getTokenLogo P env md5) w).2.2.trace ≤ netCount w.trace + 1 := by
  cases hs : P.str md5 with
  | error e =>
    have h₁ := getTokenLogo_throw P env md5 w e hs
    rw [callTwice_eq _ w w w _ h₁ h₁]
    simp
  | ok s =>
    cases hc : mapGet ("logo_" ++ s) w.cache with
    | some hit =>
      have h₁ := getTokenLogo_hit P env md5 s w hit hs hc
      rw [callTwice_eq _ w w w _ h₁ h₁]
      simp
    | none =>
      have hfetch : ∀ he : mapGet s w.logos = some "" ∨
          (mapGet s w.logos = none ∧ s ∉ objectPrototypeNames),
          (callTwice (getTokenLogo P env md5) w).2.1
            = (callTwice (getTokenLogo P env md5) w).1 ∧
          netCount (callTwice (getTokenLogo P env md5) w).2.2.trace ≤ netCount w.trace + 1 := by
        intro he
        have h₁ := getTokenLogo_fetch P env md5 s w hs hc he
        cases hn : env.getImage (netCount w.trace) ("https://s1.xrpl.to/token/" ++ s) with
        | none => exact absurd ⟨s, hs, hc, he, Or.inl hn⟩ h
        | some bytes =>
          cases hw : env.putFile (writeCount w.trace) with
          | written =>
            rw [fetchLogo_saved env s ("logo_" ++ s) w.logos
              ⟨w.cache, w.logoFile, w.trace ++ [Effect.readFile]⟩ bytes
              (by simpa [netCount_append, netCount] using hn)
              (by simpa [writeCount_append, writeCount] using hw)] at h₁
            rw [callTwice_eq _ w _ _ _ h₁
              (getTokenLogo_hit P env md5 s _ _ hs (mapGet_mapSet_self _ _ _))]
            simp [netCount_append, netCount]
          | rejected =>
            exact absurd ⟨s, hs, hc, he, Or.inr (by rw [hw]; exact fun h => WriteResult.noConfusion h)⟩ h
          | truncated =>
            exact absurd ⟨s, hs, hc, he, Or.inr (by rw [hw]; exact fun h => WriteResult.noConfusion h)⟩ h
      cases he : mapGet s w.logos with
      | some v =>
        by_cases hv : v = ""
        · subst hv; exact hfetch (Or.inl he)
        · have h₁ := getTokenLogo_stored P env md5 s v w hs hc he hv
          rw [callTwice_eq _ w _ _ _ h₁
            (getTokenLogo_hit P env md5 s _ _ hs (mapGet_mapSet_self _ _ _))]
          simp [netCount_append, netCount]
      | none =>
        by_cases hp : s ∈ objectPrototypeNames
        · have h₁ := getTokenLogo_inherited P env md5 s w hs hc he hp
          rw [callTwice_eq _ w _ _ _ h₁
            (getTokenLogo_inherited P env md5 s
              ⟨w.cache, w.logoFile, w.trace ++ [Effect.readFile]⟩ hs hc he hp)]
          simp [netCount_append, netCount]
        · exact hfetch (Or.inr ⟨he, hp⟩)

theorem descriptionHandler_twice (P : Platform) (env : Env) (issuer currency : String)
    (w : World) (body : JsVal)
    (h : (descriptionHandler P env issuer currency w).1 = Outcome.responded body) :
    (callTwice (descriptionHandler P env issuer currency) w).2.1
      = (callTwice (descriptionHandler P env issuer currency) w).1 ∧
    netCount (callTwice (descriptionHandler P env issuer currency) w).2.2.trace
      ≤ netCount w.trace + 1 := by
  have hcatch : catchOutcome (descriptionCatch catchScope)
      = Outcome.raised (JsError.referenceError "issuer") := rfl
  cases hc : mapGet (descKey issuer currency) w.cache with
  | some hit =>
    have h₁ : descriptionHandler P env issuer currency w
        = (Outcome.responded (JsVal.obj hit), w) := by
      simp [descriptionHandler, hc]
    rw [callTwice_eq _ w w w _ h₁ h₁]
    simp
  | none =>
    cases hn : env.getJson (netCount w.trace) (descUrl issuer currency) with
    | none =>
      simp [descriptionHandler, hc, httpGetJson, hn, hcatch] at h
    | some data =>
      cases hd : detailOf P data with
      | error e =>
        simp [descriptionHandler, hc, httpGetJson, hn, hd, hcatch] at h
      | ok detail =>
        have h₁ : descriptionHandler P env issuer currency w
            = (Outcome.responded (JsVal.obj detail),
                { cache := mapSet (descKey issuer currency) detail w.cache,
                  logoFile := w.logoFile,
                  trace := w.trace ++ [Effect.httpGet (descUrl issuer currency)] }) := by
          simp [descriptionHandler, hc, httpGetJson, hn, hd]
        have h₂ : descriptionHandler P env issuer currency
              { cache := mapSet (descKey issuer currency) detail w.cache,
                logoFile := w.logoFile,
                trace := w.trace ++ [Effect.httpGet (descUrl issuer currency)] }
            = (Outcome.responded (JsVal.obj detail),
                { cache := mapSet (descKey issuer currency) detail w.cache,
                  logoFile := w.logoFile,
                  trace := w.trace ++ [Effect.httpGet (descUrl issuer currency)] }) := by
          simp [descriptionHandler, mapGet_mapSet_self]
        rw [callTwice_eq _ w _ _ _ h₁ h₂]
        simp [netCount_append, netCount]

theorem richlistHandler_twice (env : Env) (md5 : String) (w : World) (body : JsVal)
    (h : (richlistHandler env md5 w).1 = Outcome.responded body) :
    (callTwice (richlistHandler env md5) w).2.1 = (callTwice (richlistHandler env md5) w).1 ∧
    netCount (callTwice (richlistHandler env md5) w).2.2.trace ≤ netCount w.trace + 1 := by
  have hcatch : catchOutcome (richlistCatch catchScope)
      = Outcome.raised (JsError.referenceError "md5") := rfl
  cases hc : mapGet (richlistKey md5) w.cache with
  | some hit =>
    have h₁ : richlistHandler env md5 w = (Outcome.responded (JsVal.obj hit), w) := by
      simp [richlistHandler, hc]
    rw [callTwice_eq _ w w w _ h₁ h₁]
    simp
  | none =>
    cases hn : env.getJson (netCount w.trace) (richlistUrl md5) with
    | none =>
      simp [richlistHandler, hc, httpGetJson, hn, hcatch] at h
    | some data =>
      have h₁ : richlistHandler env md5 w
          = (Outcome.responded (JsVal.obj [("topHolders", (data.prop "richList").or (JsVal.arr []))]),
              { cache := mapSet (richlistKey md5)
                  [("topHolders", (data.prop "richList").or (JsVal.arr []))] w.cache,
                logoFile := w.logoFile,
                trace := w.trace ++ [Effect.httpGet (richlistUrl md5)] }) := by
        simp [richlistHandler, hc, httpGetJson, hn]
      have h₂ : richlistHandler env md5
            { cache := mapSet (richlistKey md5)
                [("topHolders", (data.prop "richList").or (JsVal.arr []))] w.cache,
              logoFile := w.logoFile,
              trace := w.trace ++ [Effect.httpGet (richlistUrl md5)] }
          = (Outcome.responded (JsVal.obj [("topHolders", (data.prop "richList").or (JsVal.arr []))]),
              { cache := mapSet (richlistKey md5)
                  [("topHolders", (data.prop "richList").or (JsVal.arr []))] w.cache,
                logoFile := w.logoFile,
                trace := w.trace ++ [Effect.httpGet (richlistUrl md5)] }) := by
        simp [richlistHandler, mapGet_mapSet_self]
      rw [callTwice_eq _ w _ _ _ h₁ h₂]
      simp [netCount_append, netCount]

theorem offersHandler_twice (env : Env) (account : String) (w : World) (body : JsVal)
    (h : (offersHandler env account w).1 = Outcome.responded body) :
    (callTwice (offersHandler env account) w).2.1 = (callTwice (offersHandler env account) w).1 ∧
    netCount (callTwice (offersHandler env account) w).2.2.trace ≤ netCount w.trace + 1 := by
  have hcatch : catchOutcome (offersCatch catchScope)
      = Outcome.raised (JsError.referenceError "account") := rfl
  cases hc : mapGet (offersKey account) w.cache with
  | some hit =>
    have h₁ : offersHandler env account w = (Outcome.responded (JsVal.obj hit), w) := by
      simp [offersHandler, hc]
    rw [callTwice_eq _ w w w _ h₁ h₁]
    simp
  | none =>
    cases hn : env.getJson (netCount w.trace) (offersUrl account) with
    | none =>
      simp [offersHandler, hc, httpGetJson, hn, hcatch] at h
    | some data =>
      have h₁ : offersHandler env account w
          = (Outcome.responded (JsVal.obj [("orderBook", (data.prop "offers").or (JsVal.arr []))]),
              { cache := mapSet (offersKey account)
                  [("orderBook", (data.prop "offers").or (JsVal.arr []))] w.cache,
                logoFile := w.logoFile,
                trace := w.trace ++ [Effect.httpGet (offersUrl account)] }) := by
        simp [offersHandler, hc, httpGetJson, hn]
      have h₂ : offersHandler env account
            { cache := mapSet (offersKey account)
                [("orderBook", (data.prop "offers").or (JsVal.arr []))] w.cache,
              logoFile := w.logoFile,
              trace := w.trace ++ [Effect.httpGet (offersUrl account)] }
          = (Outcome.responded (JsVal.obj [("orderBook", (data.prop "offers").or (JsVal.arr []))]),
              { cache := mapSet (offersKey account)
                  [("orderBook", (data.prop "offers").or (JsVal.arr []))] w.cache,
                logoFile := w.logoFile,
                trace := w.trace ++ [Effect.httpGet (offersUrl account)] }) := by
        simp [offersHandler, mapGet_mapSet_self]
      rw [callTwice_eq _ w _ _ _ h₁ h₂]
      simp [netCount_append, netCount]

/-- C6 (amended): for each cached fetch operation and every parameter value,
when the first of two successive calls with identical parameters does not end
in its `catch` block (for the logo resolution: no rejected request to the image
host and no rejected write of the store; for the description, rich-list and
offers handlers: the call answers), the two calls issue at most one upstream
request in total and the second call returns what the first returned. -/
theorem cached_fetch_twice (P : Platform) (env : Env) (w : World) (md5 : JsVal)
    (issuer currency fp account : String) (b₁ b₂ b₃ : JsVal) :
    (¬ logoFetchFails P env md5 w →
      (callTwice (getTokenLogo P env md5) w).2.1 = (callTwice (getTokenLogo P env md5) w).1 ∧
      netCount (callTwice (getTokenLogo P env md5) w).2.2.trace ≤ netCount w.trace + 1) ∧
    ((descriptionHandler P env issuer currency w).1 = Outcome.responded b₁ →
      (callTwice (descriptionHandler P env issuer currency) w).2.1
        = (callTwice (descriptionHandler P env issuer currency) w).1 ∧
      netCount (callTwice (descriptionHandler P env issuer currency) w).2.2.trace
        ≤ netCount w.trace + 1) ∧
    ((richlistHandler env fp w).1 = Outcome.responded b₂ →
      (callTwice (richlistHandler env fp) w).2.1 = (callTwice (richlistHandler env fp) w).1 ∧
      netCount (callTwice (richlistHandler env fp) w).2.2.trace ≤ netCount w.trace + 1) ∧
    ((offersHandler env account w).1 = Outcome.responded b₃ →
      (callTwice (offersHandler env account) w).2.1
        = (callTwice (offersHandler env account) w).1 ∧
      netCount (callTwice (offersHandler env account) w).2.2.trace ≤ netCount w.trace + 1) :=
  ⟨getTokenLogo_twice P env md5 w, descriptionHandler_twice P env issuer currency w b₁,
    richlistHandler_twice env fp w b₂, offersHandler_twice env account w b₃⟩

/-- Witness of C6 (amended): the image host answers and the disk accepts the
write, fresh server. -/
theorem cached_fetch_twice_witness :
    ¬ logoFetchFails samplePlatform (Env.up JsVal.null [77, 97, 110]) (JsVal.str "abc")
        (World.fresh none) ∧
    (callTwice (getTokenLogo samplePlatform (Env.up JsVal.null [77, 97, 110]) (JsVal.str "abc"))
        (World.fresh none)).2.1
      = (callTwice (getTokenLogo samplePlatform (Env.up JsVal.null [77, 97, 110])
          (JsVal.str "abc")) (World.fresh none)).1 :=
  have hok : ¬ logoFetchFails samplePlatform (Env.up JsVal.null [77, 97, 110]) (JsVal.str "abc")
      (World.fresh none) := fun ⟨_, _, _, _, h⟩ =>
    h.elim (fun h => Option.noConfusion h) (fun h => h rfl)
  ⟨hok,
    ((cached_fetch_twice samplePlatform (Env.up JsVal.null [77, 97, 110]) (World.fresh none)
      (JsVal.str "abc") "rIssuer" "USD" "abc" "rIssuer" JsVal.null JsVal.null JsVal.null).1
      hok).1⟩

/-- C6 as stated fails when the first call ends in its `catch` block, because
nothing is cached then and the second call repeats the request: two requests for
two calls, when the image host rejects the request and also when it answers but
the write of the store is rejected. -/
theorem cached_fetch_retry_after_failure :
    (callTwice (getTokenLogo samplePlatform Env.down (JsVal.str "abc"))
      (World.fresh none)).2.2.trace
      = [Effect.readFile, Effect.httpGet "https://s1.xrpl.to/token/abc",
         Effect.readFile, Effect.httpGet "https://s1.xrpl.to/token/abc"] ∧
    netCount (callTwice (getTokenLogo samplePlatform Env.down (JsVal.str "abc"))
      (World.fresh none)).2.2.trace = 2 ∧
    netCount (callTwice
      (getTokenLogo samplePlatform (Env.disk [] WriteResult.rejected) (JsVal.str "abc"))
      (World.fresh none)).2.2.trace = 2 :=
  ⟨rfl, rfl, rfl⟩

/-! ## Upstream failure on the detail routes -/

theorem descriptionHandler_rejected (P : Platform) (env : Env) (issuer currency : String)
    (w : World) (hc : mapGet (descKey issuer currency) w.cache = none)
    (hn : env.getJson (netCount w.trace) (descUrl issuer currency) = none) :
    (descriptionHandler P env issuer currency w).1
      = Outcome.raised (JsError.referenceError "issuer") := by
  simp only [descriptionHandler, hc, httpGetJson, hn]
  rfl

theorem richlistHandler_rejected (env : Env) (md5 : String) (w : World)
    (hc : mapGet (richlistKey md5) w.cache = none)
    (hn : env.getJson (netCount w.trace) (richlistUrl md5) = none) :
    (richlistHandler env md5 w).1 = Outcome.raised (JsError.referenceError "md5") := by
  simp only [richlistHandler, hc, httpGetJson, hn]
  rfl

theorem offersHandler_rejected (env : Env) (account : String) (w : World)
    (hc : mapGet (offersKey account) w.cache = none)
    (hn : env.getJson (netCount w.trace) (offersUrl account) = none) :
    (offersHandler env account w).1 = Outcome.raised (JsError.referenceError "account") := by
  simp only [offersHandler, hc, httpGetJson, hn]
  rfl

/-- C1 (the code at a failing input): with nothing cached and the upstream
down, each of the three detail handlers raises a `ReferenceError` from its
`catch` block (the template of its `console.error` reads a `const` of the `try`
block) and sends no response. -/
theorem detail_routes_raise_on_failure :
    (descriptionHandler samplePlatform Env.down "rIssuer" "USD" (World.fresh none)).1
      = Outcome.raised (JsError.referenceError "issuer") ∧
    (richlistHandler Env.down "abc123" (World.fresh none)).1
      = Outcome.raised (JsError.referenceError "md5") ∧
    (offersHandler Env.down "rIssuer" (World.fresh none)).1
      = Outcome.raised (JsError.referenceError "account") :=
  ⟨rfl, rfl, rfl⟩

/-! ## The token page -/

/-- C2: for every `start` and `limit` of the query and every state of the
response cache and of the logo store, when the request to the token catalog is
rejected, or the value `response.data.tokens || response.data` is not an array,
the `/api/tokens` handler responds with the fixed list of two mock tokens, RLUSD
then SGB, both with logo `""`; it does not raise and does not answer `[]`.  (A
query whose values cannot be converted to a string makes `parseInt` throw before
any request, and is answered with the same list.) -/
theorem tokens_fallback (P : Platform) (env : Env) (qStart qLimit : JsVal) (w : World)
    (h : ∀ url : String, catalogUrl P qStart qLimit = Except.ok url →
      env.getJson (netCount w.trace) url = none ∨
      ∃ data : JsVal, env.getJson (netCount w.trace) url = some data ∧
        ∀ items : List JsVal, catalogTokens data ≠ Except.ok (JsVal.arr items)) :
    (tokensHandler P env qStart qLimit w).1 = Outcome.responded fallbackTokens ∧
    (tokensHandler P env qStart qLimit w).2.cache = w.cache ∧
    (tokensHandler P env qStart qLimit w).2.logoFile = w.logoFile ∧
    ∃ a b : JsVal, fallbackTokens = JsVal.arr [a, b] ∧
      a.prop "name" = JsVal.str "RLUSD" ∧ b.prop "name" = JsVal.str "SGB" ∧
      a.prop "logo" = JsVal.str "" ∧ b.prop "logo" = JsVal.str "" := by
  have hfb : ∃ a b : JsVal, fallbackTokens = JsVal.arr [a, b] ∧
      a.prop "name" = JsVal.str "RLUSD" ∧ b.prop "name" = JsVal.str "SGB" ∧
      a.prop "logo" = JsVal.str "" ∧ b.prop "logo" = JsVal.str "" :=
    ⟨_, _, rfl, rfl, rfl, rfl, rfl⟩
  cases hurl : catalogUrl P qStart qLimit with
  | error e => simp [tokensHandler, tokensTry, hurl, hfb]
  | ok url =>
    rcases h url hurl with h | ⟨data, h, hna⟩
    · simp [tokensHandler, tokensTry, hurl, httpGetJson, h, hfb]
    · cases hct : catalogTokens data with
      | error e => simp [tokensHandler, tokensTry, hurl, httpGetJson, h, hct, hfb]
      | ok v =>
        cases v with
        | arr items => exact absurd hct (hna items)
        | undefined => simp [tokensHandler, tokensTry, hurl, httpGetJson, h, hct, hfb]
        | null => simp [tokensHandler, tokensTry, hurl, httpGetJson, h, hct, hfb]
        | bool b => simp [tokensHandler, tokensTry, hurl, httpGetJson, h, hct, hfb]
        | num n => simp [tokensHandler, tokensTry, hurl, httpGetJson, h, hct, hfb]
        | str s => simp [tokensHandler, tokensTry, hurl, httpGetJson, h, hct, hfb]
        | obj fields => simp [tokensHandler, tokensTry, hurl, httpGetJson, h, hct, hfb]

/-- Witness of C2: the catalog is down. -/
theorem tokens_fallback_witness :
    (∀ url : String, catalogUrl samplePlatform JsVal.undefined JsVal.undefined = Except.ok url →
      Env.down.getJson (netCount (World.fresh none).trace) url = none) ∧
    (tokensHandler samplePlatform Env.down JsVal.undefined JsVal.undefined (World.fresh none)).1
      = Outcome.responded fallbackTokens :=
  ⟨fun _ _ => rfl,
    (tokens_fallback samplePlatform Env.down JsVal.undefined JsVal.undefined (World.fresh none)
      (fun _ _ => Or.inl rfl)).1⟩

theorem getTokenLogo_returns (P : Platform) (env : Env) (md5 : JsVal) (s : String) (w : World)
    (hs : P.str md5 = Except.ok s) (hp : s ∉ objectPrototypeNames) :
    ∃ v : JsVal, (getTokenLogo P env md5 w).1 = Except.ok v := by
  cases hc : mapGet ("logo_" ++ s) w.cache with
  | some hit => exact ⟨_, by rw [getTokenLogo_hit P env md5 s w hit hs hc]⟩
  | none =>
    cases he : mapGet s w.logos with
    | some v =>
      by_cases hv : v = ""
      · subst hv
        exact ⟨_, by rw [getTokenLogo_fetch P env md5 s w hs hc (Or.inl he)]⟩
      · exact ⟨_, by rw [getTokenLogo_stored P env md5 s v w hs hc he hv]⟩
    | none => exact ⟨_, by rw [getTokenLogo_fetch P env md5 s w hs hc (Or.inr ⟨he, hp⟩)]⟩

theorem tokenSummary_ok (P : Platform) (token md5 logo : JsVal) (v m h : String)
    (hv : P.str ((token.prop "vol24hxrp").or (JsVal.num (JsNum.fin 0))) = Except.ok v)
    (hm : P.str ((token.prop "marketcap").or (JsVal.num (JsNum.fin 0))) = Except.ok m)
    (hh : P.str ((token.prop "trustlines").or (JsVal.num (JsNum.fin 0))) = Except.ok h) :
    tokenSummary P token md5 logo = Except.ok (JsVal.obj
      [("name", (token.prop "currency").or (JsVal.str "Unknown")),
       ("volume", JsVal.num (P.parseFloat v)),
       ("marketCap", JsVal.num (P.parseFloat m)),
       ("holders", JsVal.num (P.parseInt h)),
       ("issuer", (token.prop "issuer").or (JsVal.str "")),
       ("md5", md5),
       ("logo", logo)]) := by
  simp [tokenSummary, Platform.parseFloatOf, Platform.parseIntOf, hv, hm, hh]

theorem resolveTokens_ok (P : Platform) (env : Env) (toks : List JsVal) :
    ∀ (acc : List JsVal) (w : World), (∀ t ∈ toks, tokenOk P t) →
      ∃ out : List JsVal, (resolveTokens P env toks acc w).1 = Except.ok (acc ++ out) ∧
        List.Forall₂ (SummaryOf P) toks out := by
  induction toks with
  | nil =>
    intro acc w _
    exact ⟨[], by simp [resolveTokens], List.Forall₂.nil⟩
  | cons t rest ih =>
    intro acc w h
    obtain ⟨hnull, ⟨md5, s, hfp, hs, hp⟩, ⟨c, hc⟩, ⟨v, hv⟩, ⟨m, hm⟩, ⟨hd, hh⟩⟩ :=
      h t (List.mem_cons_self _ _)
    obtain ⟨logoData, hlogo⟩ := getTokenLogo_returns P env md5 s w hs hp
    have hsplit : getTokenLogo P env md5 w = (Except.ok logoData, (getTokenLogo P env md5 w).2) := by
      rw [← hlogo]
    have hsum := tokenSummary_ok P t md5 ((logoData.prop "image").or (JsVal.str "")) v m hd hv hm hh
    obtain ⟨out, hout, hall⟩ := ih
      (acc ++ [JsVal.obj
        [("name", (t.prop "currency").or (JsVal.str "Unknown")),
         ("volume", JsVal.num (P.parseFloat v)),
         ("marketCap", JsVal.num (P.parseFloat m)),
         ("holders", JsVal.num (P.parseInt hd)),
         ("issuer", (t.prop "issuer").or (JsVal.str "")),
         ("md5", md5),
         ("logo", (logoData.prop "image").or (JsVal.str ""))]])
      (getTokenLogo P env md5 w).2
      (fun t' ht' => h t' (List.mem_cons_of_mem _ ht'))
    refine ⟨JsVal.obj
        [("name", (t.prop "currency").or (JsVal.str "Unknown")),
         ("volume", JsVal.num (P.parseFloat v)),
         ("marketCap", JsVal.num (P.parseFloat m)),
         ("holders", JsVal.num (P.parseInt hd)),
         ("issuer", (t.prop "issuer").or (JsVal.str "")),
         ("md5", md5),
         ("logo", (logoData.prop "image").or (JsVal.str ""))] :: out,
      ?_, List.Forall₂.cons ⟨md5, hfp, rfl, rfl, rfl⟩ hall⟩
    simp only [resolveTokens, hnull, hfp]
    rw [hsplit]
    simp only [hc, hsum]
    simpa using hout

theorem tokenFingerprint_spec (P : Platform) (token md5 : JsVal)
    (h : tokenFingerprint P token = Except.ok md5) :
    ((token.prop "md5").truthy = true → md5 = token.prop "md5") ∧
    ((token.prop "md5").truthy = false →
      ∃ si sc : String, P.str (token.prop "issuer") = Except.ok si ∧
        P.str (token.prop "currency") = Except.ok sc ∧
        md5 = JsVal.str (P.md5Hex (si ++ "_" ++ sc))) := by
  cases ht : (token.prop "md5").truthy with
  | true =>
    simp only [tokenFingerprint, ht, if_true] at h
    exact ⟨fun _ => (Except.ok.inj h).symm, fun h' => Bool.noConfusion h'⟩
  | false =>
    refine ⟨fun h' => Bool.noConfusion h', fun _ => ?_⟩
    simp only [tokenFingerprint, ht, Bool.false_eq_true, if_false, getMD5Value] at h
    cases hi : P.str (token.prop "issuer") with
    | error e => simp [hi] at h
    | ok si =>
      cases hc : P.str (token.prop "currency") with
      | error e => simp [hi, hc] at h
      | ok sc =>
        simp only [hi, hc] at h
        exact ⟨si, sc, rfl, rfl, (Except.ok.inj h).symm⟩

/-- C8 (amended): when the catalog answers with an array of tokens on which the
body of the loop does not throw (see `tokenOk`), the list the `/api/tokens`
handler responds with has the length of that array, and its i-th element is
built from the i-th catalog token: its name is `currency` or `'Unknown'`, its
issuer is `issuer` or `''`, and its fingerprint is the token's `md5` when that is
truthy and the digest of `issuer + "_" + currency` otherwise, whatever each logo
resolution produced. -/
theorem tokens_page_order (P : Platform) (env : Env) (qStart qLimit : JsVal) (w : World)
    (url : String) (data : JsVal) (toks : List JsVal)
    (hurl : catalogUrl P qStart qLimit = Except.ok url)
    (hreq : env.getJson (netCount w.trace) url = some data)
    (hdata : catalogTokens data = Except.ok (JsVal.arr toks))
    (htok : ∀ t ∈ toks, tokenOk P t) :
    ∃ out : List JsVal,
      (tokensHandler P env qStart qLimit w).1 = Outcome.responded (JsVal.arr out) ∧
      out.length = toks.length ∧
      ∀ (i : Nat) (hi : i < toks.length) (ho : i < out.length),
        (out.get ⟨i, ho⟩).prop "name"
          = ((toks.get ⟨i, hi⟩).prop "currency").or (JsVal.str "Unknown") ∧
        (out.get ⟨i, ho⟩).prop "issuer" = ((toks.get ⟨i, hi⟩).prop "issuer").or (JsVal.str "") ∧
        (((toks.get ⟨i, hi⟩).prop "md5").truthy = true →
          (out.get ⟨i, ho⟩).prop "md5" = (toks.get ⟨i, hi⟩).prop "md5") ∧
        (((toks.get ⟨i, hi⟩).prop "md5").truthy = false →
          ∃ si sc : String, P.str ((toks.get ⟨i, hi⟩).prop "issuer") = Except.ok si ∧
            P.str ((toks.get ⟨i, hi⟩).prop "currency") = Except.ok sc ∧
            (out.get ⟨i, ho⟩).prop "md5" = JsVal.str (P.md5Hex (si ++ "_" ++ sc))) := by
  obtain ⟨out, hout, hall⟩ := resolveTokens_ok P env toks []
    { cache := w.cache, logoFile := w.logoFile,
      trace := w.trace ++ [Effect.httpGet url] } htok
  refine ⟨out, ?_, hall.length_eq.symm, ?_⟩
  · simp only [List.nil_append] at hout
    have hsplit : resolveTokens P env toks []
        { cache := w.cache, logoFile := w.logoFile,
          trace := w.trace ++ [Effect.httpGet url] }
        = (Except.ok out, (resolveTokens P env toks []
            { cache := w.cache, logoFile := w.logoFile,
              trace := w.trace ++ [Effect.httpGet url] }).2) := by
      rw [← hout]
    simp only [tokensHandler, tokensTry, hurl, httpGetJson, hreq, hdata]
    rw [hsplit]
  · intro i hi ho
    obtain ⟨md5, hfp, hname, hissuer, hmd5⟩ := hall.get hi ho
    obtain ⟨h₁, h₂⟩ := tokenFingerprint_spec P _ md5 hfp
    refine ⟨hname, hissuer, fun ht => ?_, fun ht => ?_⟩
    · rw [hmd5]; exact h₁ ht
    · obtain ⟨si, sc, hsi, hsc, hm⟩ := h₂ ht
      exact ⟨si, sc, hsi, hsc, by rw [hmd5]; exact hm⟩

/-- Witness of C8 (amended): a page of two tokens, image host answering. -/
theorem tokens_page_order_witness :
    (∀ t ∈ [JsVal.obj [("md5", JsVal.str "abc"), ("currency", JsVal.str "USD")],
        JsVal.obj [("md5", JsVal.str "def"), ("issuer", JsVal.str "rIssuer")]],
      tokenOk samplePlatform t) ∧
    ∃ out : List JsVal,
      (tokensHandler samplePlatform
        (Env.up (JsVal.obj [("tokens", JsVal.arr
          [JsVal.obj [("md5", JsVal.str "abc"), ("currency", JsVal.str "USD")],
           JsVal.obj [("md5", JsVal.str "def"), ("issuer", JsVal.str "rIssuer")]])]) [77])
        JsVal.undefined JsVal.undefined (World.fresh none)).1
        = Outcome.responded (JsVal.arr out) ∧
      out.length = 2 :=
  have hok : ∀ t ∈ [JsVal.obj [("md5", JsVal.str "abc"), ("currency", JsVal.str "USD")],
      JsVal.obj [("md5", JsVal.str "def"), ("issuer", JsVal.str "rIssuer")]],
      tokenOk samplePlatform t := by
    intro t ht
    simp only [List.mem_cons, List.mem_singleton, List.not_mem_nil, or_false] at ht
    rcases ht with ht | ht
    · rw [ht]
      exact ⟨rfl, ⟨JsVal.str "abc", "abc", rfl, rfl, by decide⟩, ⟨_, rfl⟩, ⟨_, rfl⟩, ⟨_, rfl⟩,
        ⟨_, rfl⟩⟩
    · rw [ht]
      exact ⟨rfl, ⟨JsVal.str "def", "def", rfl, rfl, by decide⟩, ⟨_, rfl⟩, ⟨_, rfl⟩, ⟨_, rfl⟩,
        ⟨_, rfl⟩⟩
  ⟨hok,
    (tokens_page_order samplePlatform
      (Env.up (JsVal.obj [("tokens", JsVal.arr
        [JsVal.obj [("md5", JsVal.str "abc"), ("currency", JsVal.str "USD")],
         JsVal.obj [("md5", JsVal.str "def"), ("issuer", JsVal.str "rIssuer")]])]) [77])
      JsVal.undefined JsVal.undefined (World.fresh none) _ _ _ rfl rfl rfl hok).imp
      (fun _ h => ⟨h.1, h.2.1⟩)⟩

/-- C8 as stated fails on an array with an element that makes the body of the
loop throw: the `catch` block answers the two mock tokens, not one summary per
element.  Three arrays of one element: `null`; a token whose `md5` is
`"constructor"` (`logos[md5]` is then an inherited function and the `slice` call
throws); a token whose `currency` is an object with an own `toString` (the
template of the log line throws). -/
theorem tokens_page_replaced_by_fallback :
    (tokensHandler samplePlatform (Env.up (JsVal.arr [JsVal.null]) [])
        JsVal.undefined JsVal.undefined (World.fresh none)).1
      = Outcome.responded fallbackTokens ∧
    (tokensHandler samplePlatform
        (Env.up (JsVal.arr [JsVal.obj [("md5", JsVal.str "constructor")]]) [])
        JsVal.undefined JsVal.undefined (World.fresh none)).1
      = Outcome.responded fallbackTokens ∧
    (tokensHandler samplePlatform
        (Env.up (JsVal.arr [JsVal.obj [("md5", JsVal.str "abc"),
          ("currency", JsVal.obj [("toString", JsVal.num (JsNum.fin 1))])]]) [])
        JsVal.undefined JsVal.undefined (World.fresh none)).1
      = Outcome.responded fallbackTokens ∧
    ∃ a b : JsVal, fallbackTokens = JsVal.arr [a, b] :=
  ⟨rfl, rfl, rfl, _, _, rfl⟩

/-! ## Client pagination -/

theorem clientInv_init : ClientInv ClientState.init := by
  simp [ClientInv, ClientState.init]

theorem clientInv_step (s : ClientState) (e : ClientEvent) (h : ClientInv s) :
    ClientInv (clientStep s e) := by
  obtain ⟨hreq, hidle, hbusy, hload⟩ := h
  cases e with
  | call =>
    cases hl : s.loading with
    | true =>
      have : clientStep s ClientEvent.call = s := by simp [clientStep, renderTokensCall, hl]
      rw [this]
      exact ⟨hreq, hidle, hbusy, hload⟩
    | false =>
      have hfl : s.inFlight = false := by
        cases hf : s.inFlight with
        | false => rfl
        | true => rw [hload hf] at hl; exact Bool.noConfusion hl
      have hs := hidle hfl
      refine ⟨?_, ?_, ?_, ?_⟩
      · simp only [clientStep, renderTokensCall, hl, Bool.false_eq_true, if_false,
          List.length_append, List.length_singleton, List.range_succ, List.map_append,
          List.map_cons, List.map_nil]
        rw [← hreq, hs]
      · simp [clientStep, renderTokensCall, hl]
      · intro _
        simp only [clientStep, renderTokensCall, hl, Bool.false_eq_true, if_false,
          List.length_append, List.length_singleton]
        rw [hs, Nat.mul_succ]
      · simp [clientStep, renderTokensCall, hl]
  | settled response drawn =>
    cases hf : s.inFlight with
    | false =>
      have : clientStep s (ClientEvent.settled response drawn) = s := by simp [clientStep, hf]
      rw [this]
      exact ⟨hreq, hidle, hbusy, hload⟩
    | true =>
      have hs := hbusy hf
      refine ⟨?_, ?_, ?_, ?_⟩
      · simpa [clientStep, renderTokensResume, hf] using hreq
      · intro _
        simpa [clientStep, renderTokensResume, hf] using hs
      · simp [clientStep, renderTokensResume, hf]
      · simp [clientStep, renderTokensResume, hf]

theorem clientInv_run (events : List ClientEvent) :
    ∀ s : ClientState, ClientInv s → ClientInv (clientRun s events) := by
  induction events with
  | nil => intro s h; exact h
  | cons e rest ih =>
    intro s h
    exact ih _ (clientInv_step s e h)

/-- C9: starting from `start = 0` and `allTokens = []`, with `limit = 100`, after
any sequence of `renderTokens` invocations and settled fetches, drawn or not,
the k-th call that passed the `loading` guard (counting from zero) asked for the
window starting at `100 * k` of width `100`, and the windows of successive calls
do not overlap; and after two calls that both passed the guard and completed
their fetch (the first one having drawn its page, which is what lets the second
one in), the windows were `[0, 100)` and `[100, 200)` and the length of
`allTokens` is the sum of the lengths of the two pages returned by
`fetchTokens`. -/
theorem pagination_windows (events : List ClientEvent) (r₁ r₂ : Option JsVal) (d₂ : Bool) :
    (clientRun ClientState.init events).requests
      = (List.range (clientRun ClientState.init events).requests.length).map
          (fun k => (100 * k, 100)) ∧
    List.Pairwise (fun a b : Nat × Nat => a.1 + a.2 ≤ b.1)
      (clientRun ClientState.init events).requests ∧
    (clientRun ClientState.init
        [ClientEvent.call, ClientEvent.settled r₁ true, ClientEvent.call,
          ClientEvent.settled r₂ d₂]).requests
      = [(0, 100), (100, 100)] ∧
    (clientRun ClientState.init
        [ClientEvent.call, ClientEvent.settled r₁ true, ClientEvent.call,
          ClientEvent.settled r₂ d₂]).allTokens.length
      = (fetchTokens r₁).length + (fetchTokens r₂).length := by
  have hinv := (clientInv_run events ClientState.init clientInv_init).1
  refine ⟨hinv, ?_, rfl, ?_⟩
  · rw [hinv, List.pairwise_map]
    refine (List.pairwise_lt_range _).imp ?_
    intro a b hab
    simp only [limit]
    omega
  · simp [clientRun, clientStep, renderTokensCall, renderTokensResume, ClientState.init]

theorem pagination_stuck_after_failed_draw (r₁ r₂ : Option JsVal) (d₂ : Bool) :
    (clientRun ClientState.init
        [ClientEvent.call, ClientEvent.settled r₁ false, ClientEvent.call,
          ClientEvent.settled r₂ d₂]).requests = [(0, 100)] ∧
    (clientRun ClientState.init
        [ClientEvent.call, ClientEvent.settled r₁ false, ClientEvent.call,
          ClientEvent.settled r₂ d₂]).loading = true := by
  simp [clientRun, clientStep, renderTokensCall, renderTokensResume, ClientState.init, limit]

/-! ## The description cache key -/

theorem append_sep_inj (x : Char) :
    ∀ (l₁ l₂ r₁ r₂ : List Char), x ∉ l₁ → x ∉ l₂ →
      l₁ ++ x :: r₁ = l₂ ++ x :: r₂ → l₁ = l₂ ∧ r₁ = r₂ := by
  intro l₁
  induction l₁ with
  | nil =>
    intro l₂ r₁ r₂ _ h₂ h
    cases l₂ with
    | nil => simpa using h
    | cons a l₂ =>
      simp only [List.nil_append, List.cons_append, List.cons.injEq] at h
      exact absurd (h.1 ▸ List.mem_cons_self _ _) h₂
  | cons a l₁ ih =>
    intro l₂ r₁ r₂ h₁ h₂ h
    cases l₂ with
    | nil =>
      simp only [List.nil_append, List.cons_append, List.cons.injEq] at h
      exact absurd (h.1 ▸ List.mem_cons_self _ _) h₁
    | cons b l₂ =>
      simp only [List.cons_append, List.cons.injEq] at h
      obtain ⟨hl, hr⟩ := ih l₂ r₁ r₂ (fun hm => h₁ (List.mem_cons_of_mem _ hm))
        (fun hm => h₂ (List.mem_cons_of_mem _ hm)) h.2
      exact ⟨by rw [h.1, hl], hr⟩

/-- C10 (amended): for issuers that contain no underscore, the description
cache key identifies its pair: two different (issuer, currency) pairs have
different keys `"desc_" + issuer + "_" + currency`. -/
theorem descKey_injective (i₁ c₁ i₂ c₂ : String)
    (h₁ : '_' ∉ i₁.toList) (h₂ : '_' ∉ i₂.toList) (hne : (i₁, c₁) ≠ (i₂, c₂)) :
    descKey i₁ c₁ ≠ descKey i₂ c₂ := by
  intro h
  apply hne
  have hd := congrArg String.toList h
  simp only [descKey, String.toList, String.data_append, List.append_assoc] at hd
  have hd' := List.append_cancel_left hd
  obtain ⟨hi, hc⟩ := append_sep_inj '_' i₁.data i₂.data c₁.data c₂.data h₁ h₂ hd'
  have hi' : i₁ = i₂ := String.ext hi
  have hc' : c₁ = c₂ := String.ext hc
  rw [hi', hc']

/-- Witness of C10 (amended): two currencies of one issuer. -/
theorem descKey_injective_witness :
    ("rIssuer", "USD") ≠ ("rIssuer", "EUR") ∧ descKey "rIssuer" "USD" ≠ descKey "rIssuer" "EUR" :=
  ⟨by decide, descKey_injective "rIssuer" "USD" "rIssuer" "EUR" (by decide) (by decide) (by decide)⟩

/-- C10 as stated fails: an underscore inside a route parameter moves the
boundary between issuer and currency, and two different pairs get one key. -/
theorem descKey_collision :
    ("a_b", "c") ≠ ("a", "b_c") ∧ descKey "a_b" "c" = descKey "a" "b_c" :=
  ⟨by decide, by decide⟩

end LedgerGlow
